import Mathlib

/-!
Verification of the common-subexpression-elimination pass
(`opt/cse/CommonSubexpressionElimination.cpp`).

The development shallowly embeds the value model, the interner, the barrier
model, the transfer function, the redundancy collector and the rewrite
planner of the pass.  Machine integers (`value_id_t`, `size_t`, registers)
are modelled as `Nat` with explicit `% 2 ^ 32` / `% 2 ^ 64` where the C++
arithmetic can wrap; pointers (`IRInstruction*`, `DexType*`, ...) are
modelled as natural-number addresses.
-/

namespace cse

/-- IR opcodes referenced by the pass.  Constructors keep the C++ names.
`ADD_INT`, `MUL_INT`, `CONST` and `CONST_WIDE` stand in for the opcode
families that the pass only touches through the external predicates
`is_commutative` / `is_const`. -/
inductive IROpcode where
  | OPCODE_MONITOR_ENTER | OPCODE_MONITOR_EXIT | OPCODE_FILL_ARRAY_DATA
  | OPCODE_APUT | OPCODE_APUT_WIDE | OPCODE_APUT_OBJECT | OPCODE_APUT_BOOLEAN
  | OPCODE_APUT_BYTE | OPCODE_APUT_CHAR | OPCODE_APUT_SHORT
  | OPCODE_IPUT | OPCODE_IPUT_WIDE | OPCODE_IPUT_OBJECT | OPCODE_IPUT_BOOLEAN
  | OPCODE_IPUT_BYTE | OPCODE_IPUT_CHAR | OPCODE_IPUT_SHORT
  | OPCODE_SPUT | OPCODE_SPUT_WIDE | OPCODE_SPUT_OBJECT | OPCODE_SPUT_BOOLEAN
  | OPCODE_SPUT_BYTE | OPCODE_SPUT_CHAR | OPCODE_SPUT_SHORT
  | OPCODE_INVOKE_VIRTUAL | OPCODE_INVOKE_SUPER | OPCODE_INVOKE_DIRECT
  | OPCODE_INVOKE_STATIC | OPCODE_INVOKE_INTERFACE
  | OPCODE_MOVE | OPCODE_MOVE_OBJECT | OPCODE_MOVE_WIDE
  | OPCODE_MOVE_RESULT | OPCODE_MOVE_RESULT_OBJECT | OPCODE_MOVE_RESULT_WIDE
  | IOPCODE_MOVE_RESULT_PSEUDO | IOPCODE_MOVE_RESULT_PSEUDO_OBJECT
  | IOPCODE_MOVE_RESULT_PSEUDO_WIDE
  | OPCODE_IGET | OPCODE_IGET_BYTE | OPCODE_IGET_CHAR | OPCODE_IGET_WIDE
  | OPCODE_IGET_SHORT | OPCODE_IGET_OBJECT | OPCODE_IGET_BOOLEAN
  | OPCODE_AGET | OPCODE_AGET_BYTE | OPCODE_AGET_CHAR | OPCODE_AGET_WIDE
  | OPCODE_AGET_SHORT | OPCODE_AGET_OBJECT | OPCODE_AGET_BOOLEAN
  | OPCODE_SGET | OPCODE_SGET_BYTE | OPCODE_SGET_CHAR | OPCODE_SGET_WIDE
  | OPCODE_SGET_SHORT | OPCODE_SGET_OBJECT | OPCODE_SGET_BOOLEAN
  | IOPCODE_LOAD_PARAM | IOPCODE_LOAD_PARAM_OBJECT | IOPCODE_LOAD_PARAM_WIDE
  | OPCODE_MOVE_EXCEPTION | OPCODE_NEW_ARRAY | OPCODE_NEW_INSTANCE
  | OPCODE_FILLED_NEW_ARRAY
  | IOPCODE_PRE_STATE_SRC
  | OPCODE_ADD_INT | OPCODE_MUL_INT | OPCODE_CONST | OPCODE_CONST_WIDE
deriving DecidableEq, Repr

open IROpcode

/-- Numeric encoding of opcodes (the C++ enum value), used by the hash.
`IOPCODE_PRE_STATE_SRC` is `0xFFFF` as in the source; the other encodings
are an arbitrary injective assignment, which is all the pass relies on. -/
def opcodeCode (op : IROpcode) : Nat :=
  match op with
  | IOPCODE_PRE_STATE_SRC => 0xFFFF
  | OPCODE_MONITOR_ENTER => 0 | OPCODE_MONITOR_EXIT => 1
  | OPCODE_FILL_ARRAY_DATA => 2
  | OPCODE_APUT => 3 | OPCODE_APUT_WIDE => 4 | OPCODE_APUT_OBJECT => 5
  | OPCODE_APUT_BOOLEAN => 6 | OPCODE_APUT_BYTE => 7 | OPCODE_APUT_CHAR => 8
  | OPCODE_APUT_SHORT => 9
  | OPCODE_IPUT => 10 | OPCODE_IPUT_WIDE => 11 | OPCODE_IPUT_OBJECT => 12
  | OPCODE_IPUT_BOOLEAN => 13 | OPCODE_IPUT_BYTE => 14 | OPCODE_IPUT_CHAR => 15
  | OPCODE_IPUT_SHORT => 16
  | OPCODE_SPUT => 17 | OPCODE_SPUT_WIDE => 18 | OPCODE_SPUT_OBJECT => 19
  | OPCODE_SPUT_BOOLEAN => 20 | OPCODE_SPUT_BYTE => 21 | OPCODE_SPUT_CHAR => 22
  | OPCODE_SPUT_SHORT => 23
  | OPCODE_INVOKE_VIRTUAL => 24 | OPCODE_INVOKE_SUPER => 25
  | OPCODE_INVOKE_DIRECT => 26 | OPCODE_INVOKE_STATIC => 27
  | OPCODE_INVOKE_INTERFACE => 28
  | OPCODE_MOVE => 29 | OPCODE_MOVE_OBJECT => 30 | OPCODE_MOVE_WIDE => 31
  | OPCODE_MOVE_RESULT => 32 | OPCODE_MOVE_RESULT_OBJECT => 33
  | OPCODE_MOVE_RESULT_WIDE => 34
  | IOPCODE_MOVE_RESULT_PSEUDO => 35 | IOPCODE_MOVE_RESULT_PSEUDO_OBJECT => 36
  | IOPCODE_MOVE_RESULT_PSEUDO_WIDE => 37
  | OPCODE_IGET => 38 | OPCODE_IGET_BYTE => 39 | OPCODE_IGET_CHAR => 40
  | OPCODE_IGET_WIDE => 41 | OPCODE_IGET_SHORT => 42 | OPCODE_IGET_OBJECT => 43
  | OPCODE_IGET_BOOLEAN => 44
  | OPCODE_AGET => 45 | OPCODE_AGET_BYTE => 46 | OPCODE_AGET_CHAR => 47
  | OPCODE_AGET_WIDE => 48 | OPCODE_AGET_SHORT => 49 | OPCODE_AGET_OBJECT => 50
  | OPCODE_AGET_BOOLEAN => 51
  | OPCODE_SGET => 52 | OPCODE_SGET_BYTE => 53 | OPCODE_SGET_CHAR => 54
  | OPCODE_SGET_WIDE => 55 | OPCODE_SGET_SHORT => 56 | OPCODE_SGET_OBJECT => 57
  | OPCODE_SGET_BOOLEAN => 58
  | IOPCODE_LOAD_PARAM => 59 | IOPCODE_LOAD_PARAM_OBJECT => 60
  | IOPCODE_LOAD_PARAM_WIDE => 61
  | OPCODE_MOVE_EXCEPTION => 62 | OPCODE_NEW_ARRAY => 63
  | OPCODE_NEW_INSTANCE => 64 | OPCODE_FILLED_NEW_ARRAY => 65
  | OPCODE_ADD_INT => 66 | OPCODE_MUL_INT => 67
  | OPCODE_CONST => 68 | OPCODE_CONST_WIDE => 69

/-- Modelled from the spec: upstream predicate `is_move` of the opcode
taxonomy (register-to-register moves; §6 and §4.3 of the spec). -/
def is_move (op : IROpcode) : Bool :=
  match op with
  | OPCODE_MOVE | OPCODE_MOVE_OBJECT | OPCODE_MOVE_WIDE => true
  | _ => false

/-- Modelled from the spec: upstream predicate `is_const` (constant-loading
opcodes, §4.5 of the spec). -/
def is_const (op : IROpcode) : Bool :=
  match op with
  | OPCODE_CONST | OPCODE_CONST_WIDE => true
  | _ => false

/-- Modelled from the spec: upstream predicate `is_load_param` (§4.5, §6). -/
def is_load_param (op : IROpcode) : Bool :=
  match op with
  | IOPCODE_LOAD_PARAM | IOPCODE_LOAD_PARAM_OBJECT | IOPCODE_LOAD_PARAM_WIDE =>
    true
  | _ => false

/-- Modelled from the spec: upstream predicate `opcode::is_commutative`
(commutative binary operations such as integer addition and
multiplication, §3 and §8 of the spec). -/
def is_commutative (op : IROpcode) : Bool :=
  match op with
  | OPCODE_ADD_INT | OPCODE_MUL_INT => true
  | _ => false

/-- Modelled from the spec: upstream predicate `is_sfield_op` (static field
access opcodes; selects the static resolution direction, §4.2). -/
def is_sfield_op (op : IROpcode) : Bool :=
  match op with
  | OPCODE_SGET | OPCODE_SGET_BYTE | OPCODE_SGET_CHAR | OPCODE_SGET_WIDE
  | OPCODE_SGET_SHORT | OPCODE_SGET_OBJECT | OPCODE_SGET_BOOLEAN
  | OPCODE_SPUT | OPCODE_SPUT_WIDE | OPCODE_SPUT_OBJECT | OPCODE_SPUT_BOOLEAN
  | OPCODE_SPUT_BYTE | OPCODE_SPUT_CHAR | OPCODE_SPUT_SHORT => true
  | _ => false

/-- An IR instruction.  `id` models the `IRInstruction*` pointer identity
(the stable hash-map key and positional anchor); the payload accessors
`has_literal`/`get_literal` etc. are modelled by `Option` fields. -/
structure IRInstruction where
  id : Nat
  opcode : IROpcode
  srcs : List Nat
  dest : Option Nat
  destIsWide : Bool := false
  literal : Option Nat := none
  typeRef : Option Nat := none
  fieldRef : Option Nat := none
  methodRef : Option Nat := none
  stringRef : Option Nat := none
  dataRef : Option Nat := none
  hasMoveResult : Bool := false
  hasMoveResultPseudo : Bool := false
deriving DecidableEq, Repr

/-- Modelled from the spec: the implicit result pseudo-register
(`RESULT_REGISTER`), the maximal `register_t` value (§3, glossary). -/
def RESULT_REGISTER : Nat := 4294967295

/-- Modelled from the spec: the external collaborators `resolve_field` and
`is_volatile` (§6 upstream contract).  `resolveField b f` resolves field
reference `f` (statically when `b` is true), returning the resolved
field's address, and `isVolatile` queries volatility. -/
structure Ext where
  resolveField : Bool → Nat → Option Nat
  isVolatile : Nat → Bool

/-- `induces_barrier` from the source: monitor instructions, heap writes,
invokes, and any field access that resolves to null or to a volatile
field. -/
def induces_barrier (ext : Ext) (insn : IRInstruction) : Bool :=
  match insn.opcode with
  | OPCODE_MONITOR_ENTER | OPCODE_MONITOR_EXIT | OPCODE_FILL_ARRAY_DATA
  | OPCODE_APUT | OPCODE_APUT_WIDE | OPCODE_APUT_OBJECT | OPCODE_APUT_BOOLEAN
  | OPCODE_APUT_BYTE | OPCODE_APUT_CHAR | OPCODE_APUT_SHORT
  | OPCODE_IPUT | OPCODE_IPUT_WIDE | OPCODE_IPUT_OBJECT | OPCODE_IPUT_BOOLEAN
  | OPCODE_IPUT_BYTE | OPCODE_IPUT_CHAR | OPCODE_IPUT_SHORT
  | OPCODE_SPUT | OPCODE_SPUT_WIDE | OPCODE_SPUT_OBJECT | OPCODE_SPUT_BOOLEAN
  | OPCODE_SPUT_BYTE | OPCODE_SPUT_CHAR | OPCODE_SPUT_SHORT
  | OPCODE_INVOKE_VIRTUAL | OPCODE_INVOKE_SUPER | OPCODE_INVOKE_DIRECT
  | OPCODE_INVOKE_STATIC | OPCODE_INVOKE_INTERFACE => true
  | _ =>
    match insn.fieldRef with
    | some fr =>
      match ext.resolveField (is_sfield_op insn.opcode) fr with
      | none => true
      | some f => ext.isVolatile f
    | none => false

/-- The payload union of `IRValue`.  The constructor records which union
member was written last; the raw 64-bit content is recovered by
`payloadBits`.  The C++ union is zero-initialized through its `uint64_t`
member, so the default payload is `literal 0`. -/
inductive Payload where
  | literal (n : Nat)
  | string (s : Nat)
  | type (t : Nat)
  | field (f : Nat)
  | method (m : Nat)
  | data (d : Nat)
  | positional_insn (i : Nat)
deriving DecidableEq, Repr

/-- Reading the union through its `uint64_t` member (`tv.literal`): the raw
bits of whichever member was written. -/
def payloadBits : Payload → Nat
  | Payload.literal n => n
  | Payload.string s => s
  | Payload.type t => t
  | Payload.field f => f
  | Payload.method m => m
  | Payload.data d => d
  | Payload.positional_insn i => i

/-- `IRValue`: opcode, value-id sources, and the (untagged, in C++) payload
union. -/
structure IRValue where
  opcode : IROpcode
  srcs : List Nat
  payload : Payload := Payload.literal 0
deriving DecidableEq, Repr

/-- `operator==(const IRValue&, const IRValue&)`: compares `opcode`, `srcs`
and the payload union read through its `uint64_t` member `literal`. -/
def irValueEq (a b : IRValue) : Bool :=
  a.opcode == b.opcode && a.srcs == b.srcs &&
    payloadBits a.payload == payloadBits b.payload

/-- `IRValueHasher`: `size_t` (64-bit) arithmetic, wrapping. -/
def irValueHash (tv : IRValue) : Nat :=
  let h0 := opcodeCode tv.opcode % 2 ^ 64
  let h1 := tv.srcs.foldl (fun h src => (h * 27 + src) % 2 ^ 64) h0
  (h1 * 27 + payloadBits tv.payload) % 2 ^ 64

/-- The `ValueIdFlags` constants. -/
def IS_PRE_STATE_SRC : Nat := 0x01

/-- Flag bit 1 of a value-id. -/
def IS_BARRIER_SENSITIVE : Nat := 0x02

/-- The value-id allocation stride (`ValueIdFlags::BASE`). -/
def BASE : Nat := 0x04

/-- `Analyzer::is_pre_state_src`. -/
def is_pre_state_src (value_id : Nat) : Bool :=
  value_id &&& IS_PRE_STATE_SRC != 0

/-- `Analyzer::is_barrier_sensitive`. -/
def is_barrier_sensitive (value_id : Nat) : Bool :=
  value_id &&& IS_BARRIER_SENSITIVE != 0

/-- The heap-read opcodes of the `switch` in `Analyzer::get_value_id`. -/
def isHeapReadOpcode (op : IROpcode) : Bool :=
  match op with
  | OPCODE_IGET | OPCODE_IGET_BYTE | OPCODE_IGET_CHAR | OPCODE_IGET_WIDE
  | OPCODE_IGET_SHORT | OPCODE_IGET_OBJECT | OPCODE_IGET_BOOLEAN
  | OPCODE_AGET | OPCODE_AGET_BYTE | OPCODE_AGET_CHAR | OPCODE_AGET_WIDE
  | OPCODE_AGET_SHORT | OPCODE_AGET_OBJECT | OPCODE_AGET_BOOLEAN
  | OPCODE_SGET | OPCODE_SGET_BYTE | OPCODE_SGET_CHAR | OPCODE_SGET_WIDE
  | OPCODE_SGET_SHORT | OPCODE_SGET_OBJECT | OPCODE_SGET_BOOLEAN => true
  | _ => false

/-- The flag bits OR-ed onto a freshly allocated value-id, as computed by
the `switch` on `value.opcode` in `Analyzer::get_value_id`. -/
def computeFlags (value : IRValue) : Nat :=
  if isHeapReadOpcode value.opcode then IS_BARRIER_SENSITIVE
  else if value.opcode = IOPCODE_PRE_STATE_SRC then IS_PRE_STATE_SRC
  else if value.srcs.any (fun src => is_barrier_sensitive src) then
    IS_BARRIER_SENSITIVE
  else 0

/-- The interner `m_value_ids`: insertion-ordered entries (oldest first) of
an `unordered_map<IRValue, value_id_t, IRValueHasher>` keyed up to
`operator==`. -/
abbrev InternState := List (IRValue × Nat)

/-- `m_value_ids.find(value)`: the id stored for a key equal (under
`operator==`) to `value`. -/
def findId (s : InternState) (value : IRValue) : Option Nat :=
  (List.find? (fun p => irValueEq p.1 value) s).map (fun p => p.2)

/-- `Analyzer::get_value_id`: return the existing id, or allocate
`m_value_ids.size() * BASE` (truncated to `uint32_t`), OR in the flags,
and insert.  The `always_assert(id / BASE == m_value_ids.size())` guards
the truncation; `assertOfGetValueId` below states when it holds. -/
def get_value_id (s : InternState) (value : IRValue) : Nat × InternState :=
  match findId s value with
  | some id => (id, s)
  | none =>
    let id := (List.length s * BASE) % 2 ^ 32 ||| computeFlags value
    (id, s ++ [(value, id)])

/-- The condition checked by the `always_assert` in `get_value_id` on the
fresh-allocation path (no 32-bit truncation of the new index). -/
def assertOfGetValueId (s : InternState) : Prop :=
  (List.length s * BASE) % 2 ^ 32 / BASE = List.length s

/-- `Analyzer::get_pre_state_src_value`: opcode `IOPCODE_PRE_STATE_SRC`,
the register number as the single source, and the instruction as
positional anchor. -/
def get_pre_state_src_value (reg : Nat) (insn : IRInstruction) : IRValue :=
  { opcode := IOPCODE_PRE_STATE_SRC
    srcs := [reg]
    payload := Payload.positional_insn insn.id }

/-- A flat (constant) abstract-domain element, as in
`sparta::ConstantAbstractDomain`. -/
inductive Flat (α : Type) where
  | bot
  | const (a : α)
  | top
deriving DecidableEq, Repr

/-- `get_constant()`. -/
def Flat.getConstant {α : Type} : Flat α → Option α
  | Flat.const a => some a
  | _ => none

/-- `CseEnvironment`: the two definition environments (barrier-sensitive
first) and the register environment, each a pointwise map into a flat
domain (extensional view of the sparta Patricia-tree environments). -/
structure CseEnvironment where
  defBs : Nat → Flat IRInstruction
  defNb : Nat → Flat IRInstruction
  ref : Nat → Flat Nat

/-- `CseEnvironment::get_def_env`. -/
def get_def_env (env : CseEnvironment) (is_barrier_sensitive : Bool) :
    Nat → Flat IRInstruction :=
  if is_barrier_sensitive then env.defBs else env.defNb

/-- Update of the selected definition environment at one value-id. -/
def set_def_env (env : CseEnvironment) (ibs : Bool) (value_id : Nat)
    (d : Flat IRInstruction) : CseEnvironment :=
  if ibs then { env with defBs := Function.update env.defBs value_id d }
  else { env with defNb := Function.update env.defNb value_id d }

/-- Record `insn` as the earliest definition of `value_id` unless the
selected definition environment already has a constant binding (the
`if (!...get_constant())` pattern in `analyze_instruction`). -/
def record_def (env : CseEnvironment) (ibs : Bool) (value_id : Nat)
    (insn : IRInstruction) : CseEnvironment :=
  match (get_def_env env ibs value_id).getConstant with
  | some _ => env
  | none => set_def_env env ibs value_id (Flat.const insn)

/-- The `set_current_state_at` lambda: bind the destination register, and
set the following register to top for wide destinations. -/
def set_current_state_at (reg : Nat) (wide : Bool) (value : Flat Nat)
    (env : CseEnvironment) : CseEnvironment :=
  let env1 := { env with ref := Function.update env.ref reg value }
  if wide then
    { env1 with ref := Function.update env1.ref (reg + 1) Flat.top }
  else env1

/-- Lookup in the per-instruction cache `new_pre_state_src_values`. -/
def lookupPre (pre : List (Nat × Nat)) (reg : Nat) : Option Nat :=
  (List.find? (fun p => p.1 == reg) pre).map (fun p => p.2)

/-- The source-operand loop of `Analyzer::get_value`: for each source
register take the constant binding from the (pre-loop copy of the)
register environment, otherwise reuse or mint a pre-state-source value id,
recording it in `new_pre_state_src_values`.  Returns the operand value-id
list, the final cache, and the grown interner. -/
def process_srcs (insn : IRInstruction) (refv : Nat → Flat Nat) :
    List Nat → List (Nat × Nat) → InternState →
    List Nat × List (Nat × Nat) × InternState
  | [], pre, s => ([], pre, s)
  | reg :: rest, pre, s =>
    match (refv reg).getConstant with
    | some c =>
      let r := process_srcs insn refv rest pre s
      (c :: r.1, r.2.1, r.2.2)
    | none =>
      match lookupPre pre reg with
      | some vid =>
        let r := process_srcs insn refv rest pre s
        (vid :: r.1, r.2.1, r.2.2)
      | none =>
        let m := get_value_id s (get_pre_state_src_value reg insn)
        let r := process_srcs insn refv rest (pre ++ [(reg, m.1)]) m.2
        (m.1 :: r.1, r.2.1, r.2.2)

/-- The positional-payload selection in `Analyzer::get_value`: the listed
opcodes are always positional, everything else is positional exactly when
it induces a barrier. -/
def isPositional (ext : Ext) (insn : IRInstruction) : Bool :=
  match insn.opcode with
  | IOPCODE_LOAD_PARAM | IOPCODE_LOAD_PARAM_OBJECT | IOPCODE_LOAD_PARAM_WIDE
  | OPCODE_MOVE_EXCEPTION | OPCODE_NEW_ARRAY | OPCODE_NEW_INSTANCE
  | OPCODE_FILLED_NEW_ARRAY => true
  | _ => induces_barrier ext insn

/-- The payload chain of `Analyzer::get_value`: positional anchor first,
then literal, type, field, method, string, data; otherwise the
zero-initialized union. -/
def selectPayload (ext : Ext) (insn : IRInstruction) : Payload :=
  if isPositional ext insn then Payload.positional_insn insn.id
  else
    match insn.literal with
    | some l => Payload.literal l
    | none =>
      match insn.typeRef with
      | some t => Payload.type t
      | none =>
        match insn.fieldRef with
        | some f => Payload.field f
        | none =>
          match insn.methodRef with
          | some m => Payload.method m
          | none =>
            match insn.stringRef with
            | some st => Payload.string st
            | none =>
              match insn.dataRef with
              | some d => Payload.data d
              | none => Payload.literal 0

/-- `Analyzer::get_value`: build the operand value-id list (minting
pre-state sources for unbound registers and writing them back into the
register environment), sort it for commutative opcodes, and attach the
payload.  `std::sort` on `value_id_t` is the unique ascending reordering,
modelled by insertion sort. -/
def get_value (ext : Ext) (insn : IRInstruction) (s : InternState)
    (env : CseEnvironment) : IRValue × InternState × CseEnvironment :=
  let r := process_srcs insn env.ref insn.srcs [] s
  let pre := r.2.1
  let env' :=
    if pre.isEmpty then env
    else
      { env with
        ref := fun reg =>
          match lookupPre pre reg with
          | some vid => Flat.const vid
          | none => env.ref reg }
  let srcs :=
    if is_commutative insn.opcode then List.insertionSort (· ≤ ·) r.1
    else r.1
  ({ opcode := insn.opcode, srcs := srcs, payload := selectPayload ext insn },
    r.2.2, env')

/-- `Analyzer::get_value_id_domain`. -/
def get_value_id_domain (ext : Ext) (insn : IRInstruction) (s : InternState)
    (env : CseEnvironment) : Flat Nat × InternState × CseEnvironment :=
  let v := get_value ext insn s env
  let i := get_value_id v.2.1 v.1
  (Flat.const i.1, i.2, v.2.2)

/-- The main `switch` of `Analyzer::analyze_instruction` (everything before
the barrier aftermath). -/
def transfer_main (ext : Ext) (insn : IRInstruction) (s : InternState)
    (env : CseEnvironment) : InternState × CseEnvironment :=
  match insn.opcode with
  | OPCODE_MOVE | OPCODE_MOVE_OBJECT | OPCODE_MOVE_WIDE =>
    let domain := env.ref (insn.srcs.getD 0 0)
    (s, set_current_state_at (insn.dest.getD 0) insn.destIsWide domain env)
  | OPCODE_MOVE_RESULT | OPCODE_MOVE_RESULT_OBJECT | OPCODE_MOVE_RESULT_WIDE
  | IOPCODE_MOVE_RESULT_PSEUDO | IOPCODE_MOVE_RESULT_PSEUDO_OBJECT
  | IOPCODE_MOVE_RESULT_PSEUDO_WIDE =>
    let domain := env.ref RESULT_REGISTER
    let env1 :=
      match domain.getConstant with
      | some value_id =>
        record_def env (is_barrier_sensitive value_id) value_id insn
      | none => env
    (s, set_current_state_at (insn.dest.getD 0) insn.destIsWide domain env1)
  | _ =>
    if insn.dest.isSome then
      let d := get_value_id_domain ext insn s env
      match d.1.getConstant with
      | some value_id =>
        let env1 := record_def d.2.2 (is_barrier_sensitive value_id) value_id
          insn
        (d.2.1,
          set_current_state_at (insn.dest.getD 0) insn.destIsWide
            (Flat.const value_id) env1)
      | none =>
        (d.2.1,
          set_current_state_at (insn.dest.getD 0) insn.destIsWide d.1 d.2.2)
    else if insn.hasMoveResult || insn.hasMoveResultPseudo then
      let d := get_value_id_domain ext insn s env
      (d.2.1,
        { d.2.2 with ref := Function.update d.2.2.ref RESULT_REGISTER d.1 })
    else (s, env)

/-- The barrier aftermath of `analyze_instruction`: clear the
barrier-sensitive definition environment and set to top every register
whose constant binding is barrier-sensitive. -/
def barrier_aftermath (env : CseEnvironment) : CseEnvironment :=
  { defBs := fun _ => Flat.top
    defNb := env.defNb
    ref := fun reg =>
      match env.ref reg with
      | Flat.const value_id =>
        if is_barrier_sensitive value_id then Flat.top
        else Flat.const value_id
      | d => d }

/-- `Analyzer::analyze_instruction`: the main switch followed by the
barrier aftermath when the instruction induces a barrier. -/
def analyze_instruction (ext : Ext) (insn : IRInstruction) (s : InternState)
    (env : CseEnvironment) : InternState × CseEnvironment :=
  let r := transfer_main ext insn s env
  if induces_barrier ext insn then (r.1, barrier_aftermath r.2) else r

/-- A forwarding record `(earlier_insn, insn)` of the constructor. -/
structure Forward where
  earlier_insn : IRInstruction
  insn : IRInstruction
deriving DecidableEq, Repr

/-- The per-block loop of the `CommonSubexpressionElimination` constructor:
re-apply the transfer function and emit forwarding records.  `none` models
the `always_assert(!analyzer.is_pre_state_src(value_id))` firing. -/
def collect_block (ext : Ext) :
    List IRInstruction → InternState → CseEnvironment → List Forward →
    Option (InternState × CseEnvironment × List Forward)
  | [], s, env, acc => some (s, env, acc)
  | insn :: rest, s, env, acc =>
    let r := analyze_instruction ext insn s env
    let s' := r.1
    let env' := r.2
    if !insn.dest.isSome || is_move insn.opcode || is_const insn.opcode then
      collect_block ext rest s' env' acc
    else
      match (env'.ref (insn.dest.getD 0)).getConstant with
      | none => collect_block ext rest s' env' acc
      | some value_id =>
        if is_pre_state_src value_id then none
        else
          match (get_def_env env' (is_barrier_sensitive value_id)
              value_id).getConstant with
          | none => collect_block ext rest s' env' acc
          | some earlier_insn =>
            if earlier_insn = insn then collect_block ext rest s' env' acc
            else if is_load_param earlier_insn.opcode then
              collect_block ext rest s' env' acc
            else
              collect_block ext rest s' env'
                (acc ++ [{ earlier_insn := earlier_insn, insn := insn }])

/-- The whole collector: each block is walked from its fixpoint entry
state; the interner is shared across blocks. -/
def collect (ext : Ext) :
    List (CseEnvironment × List IRInstruction) → InternState → List Forward →
    Option (InternState × List Forward)
  | [], s, acc => some (s, acc)
  | (entry, insns) :: rest, s, acc =>
    match collect_block ext insns s entry acc with
    | none => none
    | some r => collect ext rest r.1 r.2.2

/-- The statistics accumulated by `patch`. -/
structure Stats where
  results_captured : Nat := 0
  instructions_eliminated : Nat := 0
deriving DecidableEq, Repr

/-- Modelled from the spec: the editable CFG as consumed by the rewrite
planner (§6 upstream contract): its instructions, the scratch-register
allocator state, and the performed after-insertions (anchor, new move). -/
structure ControlFlowGraph where
  insns : List IRInstruction
  nextTemp : Nat := 0
  inserted : List (IRInstruction × IRInstruction) := []
deriving DecidableEq, Repr

/-- `cfg.allocate_temp()`. -/
def allocate_temp (cfg : ControlFlowGraph) : Nat × ControlFlowGraph :=
  (cfg.nextTemp, { cfg with nextTemp := cfg.nextTemp + 1 })

/-- `cfg.allocate_wide_temp()`. -/
def allocate_wide_temp (cfg : ControlFlowGraph) : Nat × ControlFlowGraph :=
  (cfg.nextTemp, { cfg with nextTemp := cfg.nextTemp + 2 })

/-- Modelled from the spec: the type-inference result element; the planner
only distinguishes reference types from the rest (§4.6). -/
inductive TypeElement where
  | REFERENCE
  | NONREFERENCE
deriving DecidableEq, Repr

/-- Modelled from the spec: the type-inference oracle — for an instruction,
the inferred type of a register after that instruction (§6). -/
abbrev TypeOracle := IRInstruction → Nat → Flat TypeElement

/-- `cfg.insert_after(it, move_insn)`. -/
def insert_after (cfg : ControlFlowGraph) (anchor move_insn : IRInstruction) :
    ControlFlowGraph :=
  { cfg with inserted := cfg.inserted ++ [(anchor, move_insn)] }

/-- A freshly `new`-ed move instruction with `set_src(0, src)` and
`set_dest(dest)`. -/
def newMove (move_opcode : IROpcode) (src dest : Nat) : IRInstruction :=
  { id := 0, opcode := move_opcode, srcs := [src], dest := some dest }

/-- The first loop of `patch`: gather relevant instructions and allocate
temp registers.  `none` models the
`always_assert(!type.is_top() && !type.is_bottom())` firing. -/
def gather_temps (ti : TypeOracle) :
    List Forward → List (IRInstruction × IROpcode × Nat) →
    List IRInstruction → ControlFlowGraph →
    Option (List (IRInstruction × IROpcode × Nat) × List IRInstruction ×
      ControlFlowGraph)
  | [], temps, insns, cfg => some (temps, insns, cfg)
  | f :: rest, temps, insns, cfg =>
    match List.find? (fun t => t.1 = f.earlier_insn) temps with
    | some _ =>
      gather_temps ti rest temps
        (if f.insn ∈ insns then insns else insns ++ [f.insn]) cfg
    | none =>
      let src_reg := f.earlier_insn.dest.getD 0
      match ti f.earlier_insn src_reg with
      | Flat.const e =>
        let a :=
          if e = TypeElement.REFERENCE then
            (OPCODE_MOVE_OBJECT, allocate_temp cfg)
          else if f.earlier_insn.destIsWide then
            (OPCODE_MOVE_WIDE, allocate_wide_temp cfg)
          else (OPCODE_MOVE, allocate_temp cfg)
        let insns1 :=
          if f.earlier_insn ∈ insns then insns else insns ++ [f.earlier_insn]
        gather_temps ti rest (temps ++ [(f.earlier_insn, a.1, a.2.1)])
          (if f.insn ∈ insns1 then insns1 else insns1 ++ [f.insn]) a.2.2
      | _ => none

/-- The second insertion loop of `patch`: moves that use the forwarded
value, inserted after each later instruction.  `none` models
`temps.at(...)` or `iterators.at(...)` throwing. -/
def insert_use_moves (temps : List (IRInstruction × IROpcode × Nat)) :
    List Forward → ControlFlowGraph → Option ControlFlowGraph
  | [], cfg => some cfg
  | f :: rest, cfg =>
    match List.find? (fun t => t.1 = f.earlier_insn) temps with
    | none => none
    | some q =>
      if f.insn ∈ cfg.insns then
        insert_use_moves temps rest
          (insert_after cfg f.insn (newMove q.2.1 q.2.2 (f.insn.dest.getD 0)))
      else none

/-- The third insertion loop of `patch`: moves that define the forwarded
value, inserted after each earlier instruction. -/
def insert_def_moves :
    List (IRInstruction × IROpcode × Nat) → ControlFlowGraph →
    Option ControlFlowGraph
  | [], cfg => some cfg
  | r :: rest, cfg =>
    if r.1 ∈ cfg.insns then
      insert_def_moves rest
        (insert_after cfg r.1 (newMove r.2.1 (r.1.dest.getD 0) r.2.2))
    else none

/-- `CommonSubexpressionElimination::patch`: returns immediately when there
are no forwarding records, otherwise runs type inference, allocates
scratch registers, inserts the moves, updates the statistics and reports a
change. -/
def patch (ti : TypeOracle) (cfg : ControlFlowGraph)
    (m_forward : List Forward) (m_stats : Stats) :
    Option (Bool × ControlFlowGraph × Stats) :=
  if m_forward.length = 0 then some (false, cfg, m_stats)
  else
    match gather_temps ti m_forward [] [] cfg with
    | none => none
    | some g =>
      let temps := g.1
      let cfg1 := g.2.2
      match insert_use_moves temps m_forward cfg1 with
      | none => none
      | some cfg2 =>
        match insert_def_moves temps cfg2 with
        | none => none
        | some cfg3 =>
          some (true, cfg3,
            { results_captured := m_stats.results_captured + temps.length
              instructions_eliminated :=
                m_stats.instructions_eliminated + m_forward.length })

/-- Modelled from the spec's words (§3): candidate equality treating the
payload as a tagged union — the same kind of payload with equal content.
Stated for comparison with the source's `irValueEq`. -/
def irValueEqSpec (a b : IRValue) : Bool :=
  a.opcode == b.opcode && a.srcs == b.srcs && a.payload == b.payload

/-- Sample payload-free commutative value, used by witnesses. -/
def sampleValue : IRValue :=
  { opcode := OPCODE_ADD_INT, srcs := [], payload := Payload.literal 7 }

/-- Sample heap-read value, used by witnesses. -/
def sampleHeapValue : IRValue :=
  { opcode := OPCODE_IGET, srcs := [0], payload := Payload.field 3 }

/-- Sample value carrying a 64-bit literal payload. -/
def sampleLiteralValue : IRValue :=
  { opcode := OPCODE_ADD_INT, srcs := [], payload := Payload.literal 5 }

/-- Sample value carrying a type-reference payload whose address bits
coincide with `sampleLiteralValue`'s literal. -/
def sampleTypeValue : IRValue :=
  { opcode := OPCODE_ADD_INT, srcs := [], payload := Payload.type 5 }

/-- Sample addition instruction, used by witnesses and counterexamples. -/
def sampleInsn : IRInstruction :=
  { id := 11, opcode := OPCODE_ADD_INT, srcs := [0, 1], dest := some 2 }

/-- Sample external environment in which no field resolves. -/
def sampleExt : Ext :=
  { resolveField := fun _ _ => none, isVolatile := fun _ => false }

/-- The all-top abstract state (the solver's initial state at the CFG
entry). -/
def topEnv : CseEnvironment :=
  { defBs := fun _ => Flat.top
    defNb := fun _ => Flat.top
    ref := fun _ => Flat.top }

/-- The move-result opcode family handled by the second case of
`analyze_instruction` (real and pseudo variants). -/
def is_move_result_family (op : IROpcode) : Bool :=
  match op with
  | OPCODE_MOVE_RESULT | OPCODE_MOVE_RESULT_OBJECT | OPCODE_MOVE_RESULT_WIDE
  | IOPCODE_MOVE_RESULT_PSEUDO | IOPCODE_MOVE_RESULT_PSEUDO_OBJECT
  | IOPCODE_MOVE_RESULT_PSEUDO_WIDE => true
  | _ => false

/-- Modelled from the spec: well-formedness of a real IR instruction (§3,
§6): its opcode is never the reserved `IOPCODE_PRE_STATE_SRC` sentinel,
and the implicit `RESULT_REGISTER` slot never appears as an explicit
source or destination register. -/
def WfInsn (insn : IRInstruction) : Prop :=
  insn.opcode ≠ IOPCODE_PRE_STATE_SRC ∧
    RESULT_REGISTER ∉ insn.srcs ∧
    insn.dest.getD 0 ≠ RESULT_REGISTER

/-- The invariant the collector's assertion rests on: the implicit result
slot never holds a concrete pre-state-source value-id. -/
def EnvInv (env : CseEnvironment) : Prop :=
  ∀ vid, env.ref RESULT_REGISTER = Flat.const vid →
    is_pre_state_src vid = false

/-- The shape invariant of an emitted forwarding record: the later
instruction has a destination and is neither a move nor a constant load,
the earlier instruction differs from the later one and is not a
load-parameter. -/
def ForwardOk (f : Forward) : Prop :=
  f.insn.dest.isSome = true ∧ is_move f.insn.opcode = false ∧
    is_const f.insn.opcode = false ∧ f.earlier_insn ≠ f.insn ∧
    is_load_param f.earlier_insn.opcode = false

/-- The operand value-id that `process_srcs` produces for a source
register: the register's constant binding if it has one, otherwise the
id cached for it in `new_pre_state_src_values`. -/
def srcEntry (refv : Nat → Flat Nat) (cache : List (Nat × Nat)) (r : Nat) :
    Nat :=
  match (refv r).getConstant with
  | some c => c
  | none => (lookupPre cache r).getD 0

/-- Sample second addition with the operand registers swapped. -/
def sampleInsn2 : IRInstruction :=
  { id := 12, opcode := OPCODE_ADD_INT, srcs := [1, 0], dest := some 3 }

/-- Sample barrier-inducing instruction (a monitor-enter). -/
def sampleBarrierInsn : IRInstruction :=
  { id := 21, opcode := OPCODE_MONITOR_ENTER, srcs := [0], dest := none }

/-- Sample abstract state binding every register to the barrier-sensitive
value-id 2. -/
def envBarrierW : CseEnvironment :=
  { defBs := fun _ => Flat.const sampleInsn
    defNb := fun _ => Flat.const sampleInsn
    ref := fun _ => Flat.const 2 }

/-! ### Arithmetic of packed value-ids -/

theorem testBit_four_mul_add (k f j : Nat) (hf : f < 4) :
    (4 * k + f).testBit j = if j < 2 then f.testBit j else k.testBit (j - 2) := by
  have h : 4 * k + f = 2 ^ 2 * k + f := by ring_nf
  rw [h]
  exact Nat.testBit_mul_pow_two_add k (by omega) j

theorem four_mul_or_eq_add (k f : Nat) (hf : f < 4) : 4 * k ||| f = 4 * k + f := by
  apply Nat.eq_of_testBit_eq
  intro j
  rw [Nat.testBit_or, testBit_four_mul_add k f j hf]
  have h4k : (4 * k).testBit j = if j < 2 then false else k.testBit (j - 2) := by
    have h := testBit_four_mul_add k 0 j (by omega)
    simpa [Nat.zero_testBit] using h
  rw [h4k]
  by_cases hj : j < 2
  · simp [hj]
  · have hfj : f.testBit j = false := by
      apply Nat.testBit_lt_two_pow
      calc f < 4 := hf
        _ = 2 ^ 2 := by norm_num
        _ ≤ 2 ^ j := Nat.pow_le_pow_right (by omega) (by omega)
    simp [hj, hfj]

theorem and_two_four_mul_add (k f : Nat) (hf : f < 4) :
    (4 * k + f) &&& 2 = f &&& 2 := by
  apply Nat.eq_of_testBit_eq
  intro j
  rw [Nat.testBit_and, Nat.testBit_and, testBit_four_mul_add k f j hf]
  match j with
  | 0 => simp
  | 1 => simp
  | j + 2 =>
    have h2 : (2 : Nat).testBit (j + 2) = false := by
      apply Nat.testBit_lt_two_pow
      calc (2 : Nat) < 2 ^ 2 := by norm_num
        _ ≤ 2 ^ (j + 2) := Nat.pow_le_pow_right (by omega) (by omega)
    simp [h2]

theorem is_pre_state_src_four_mul_add (k f : Nat) (_hf : f < 4) :
    is_pre_state_src (4 * k + f) = is_pre_state_src f := by
  unfold is_pre_state_src IS_PRE_STATE_SRC
  rw [Nat.and_one_is_mod, Nat.and_one_is_mod]
  have : (4 * k + f) % 2 = f % 2 := by omega
  rw [this]

theorem is_barrier_sensitive_four_mul_add (k f : Nat) (hf : f < 4) :
    is_barrier_sensitive (4 * k + f) = is_barrier_sensitive f := by
  unfold is_barrier_sensitive IS_BARRIER_SENSITIVE
  rw [and_two_four_mul_add k f hf]

theorem computeFlags_lt (v : IRValue) : computeFlags v < 4 := by
  unfold computeFlags IS_BARRIER_SENSITIVE IS_PRE_STATE_SRC
  split <;> try omega
  split <;> try omega
  split <;> omega

/-! ### Value equality and the interner, and sample data for witnesses -/

theorem irValueEq_iff (a b : IRValue) :
    irValueEq a b = true ↔
      a.opcode = b.opcode ∧ a.srcs = b.srcs ∧
        payloadBits a.payload = payloadBits b.payload := by
  unfold irValueEq
  simp [Bool.and_eq_true, beq_iff_eq, and_assoc]

theorem irValueEq_refl (a : IRValue) : irValueEq a a = true := by
  rw [irValueEq_iff]
  exact ⟨rfl, rfl, rfl⟩

theorem irValueEq_symm (a b : IRValue) (h : irValueEq a b = true) :
    irValueEq b a = true := by
  rw [irValueEq_iff] at h ⊢
  exact ⟨h.1.symm, h.2.1.symm, h.2.2.symm⟩

theorem irValueEq_trans (a b c : IRValue) (hab : irValueEq a b = true)
    (hbc : irValueEq b c = true) : irValueEq a c = true := by
  rw [irValueEq_iff] at hab hbc ⊢
  exact ⟨hab.1.trans hbc.1, hab.2.1.trans hbc.2.1, hab.2.2.trans hbc.2.2⟩

theorem irValueEq_same (a b x : IRValue) (hab : irValueEq a b = true) :
    irValueEq x a = irValueEq x b := by
  by_cases h : irValueEq x a = true
  · rw [h, (irValueEq_trans x a b h hab).symm]
  · rcases hb : irValueEq x b with _ | _
    · exact (Bool.eq_false_iff.mpr h).trans rfl
    · exact absurd (irValueEq_trans x b a hb (irValueEq_symm a b hab)) h

theorem computeFlags_congr (a b : IRValue) (h : irValueEq a b = true) :
    computeFlags a = computeFlags b := by
  rw [irValueEq_iff] at h
  unfold computeFlags
  rw [h.1, h.2.1]

theorem findId_congr (s : InternState) (a b : IRValue)
    (h : irValueEq a b = true) : findId s a = findId s b := by
  unfold findId
  have : List.find? (fun p => irValueEq p.1 a) s =
      List.find? (fun p => irValueEq p.1 b) s := by
    induction s with
    | nil => rfl
    | cons hd tl ih =>
      simp only [List.find?]
      rw [irValueEq_same a b hd.1 h]
      cases irValueEq hd.1 b with
      | true => rfl
      | false => exact ih
  rw [this]

theorem findId_append_left (s t : InternState) (a : IRValue) (id : Nat)
    (h : findId s a = some id) : findId (s ++ t) a = some id := by
  unfold findId at h ⊢
  rw [List.find?_append]
  rcases hf : List.find? (fun p => irValueEq p.1 a) s with _ | p
  · rw [hf] at h
    exact absurd h (by simp)
  · rw [hf] at h ⊢
    simpa [Option.or] using h

theorem get_value_id_extends (s : InternState) (v : IRValue) :
    ∃ t, (get_value_id s v).2 = s ++ t := by
  unfold get_value_id
  rcases h : findId s v with _ | id
  · exact ⟨_, rfl⟩
  · exact ⟨[], (List.append_nil s).symm⟩

theorem get_value_id_found (s : InternState) (v : IRValue) (id : Nat)
    (h : findId s v = some id) : get_value_id s v = (id, s) := by
  unfold get_value_id
  rw [h]

theorem get_value_id_fresh (s : InternState) (v : IRValue)
    (h : findId s v = none) :
    get_value_id s v =
      ((List.length s * BASE) % 2 ^ 32 ||| computeFlags v,
        s ++ [(v, (List.length s * BASE) % 2 ^ 32 ||| computeFlags v)]) := by
  unfold get_value_id
  rw [h]

/-- Interner states reachable through a sequence of `get_value_id` calls. -/
inductive InternReaches : InternState → InternState → Prop
  | refl (s : InternState) : InternReaches s s
  | step (s t : InternState) (v : IRValue) (h : InternReaches s t) :
      InternReaches s (get_value_id t v).2

theorem internReaches_extends (s t : InternState) (h : InternReaches s t) :
    ∃ u, t = s ++ u := by
  induction h with
  | refl => exact ⟨[], (List.append_nil s).symm⟩
  | step t v _ ih =>
    obtain ⟨u, hu⟩ := ih
    obtain ⟨w, hw⟩ := get_value_id_extends t v
    exact ⟨u ++ w, by rw [hw, hu, List.append_assoc]⟩

theorem findId_stable (s t : InternState) (a : IRValue) (id : Nat)
    (h : findId s a = some id) (hr : InternReaches s t) : findId t a = some id := by
  obtain ⟨u, hu⟩ := internReaches_extends s t hr
  rw [hu]
  exact findId_append_left s u a id h

/-- Every id stored in the interner is a stride multiple plus the flag bits
of its value (the shape that `get_value_id` allocates). -/
def InternFlagsWF (s : InternState) : Prop :=
  ∀ p ∈ s, ∃ k, p.2 = 4 * k + computeFlags p.1

theorem internFlagsWF_nil : InternFlagsWF [] := by
  intro p hp
  exact absurd hp (List.not_mem_nil p)

theorem fresh_id_shape (s : InternState) (v : IRValue) :
    ∃ k, (List.length s * BASE) % 2 ^ 32 ||| computeFlags v =
      4 * k + computeFlags v := by
  have h1 : List.length s * BASE % 2 ^ 32 = 4 * (List.length s % 2 ^ 30) := by
    have : List.length s * BASE = 4 * List.length s := by
      unfold BASE
      ring
    rw [this, show (2 : Nat) ^ 32 = 4 * 2 ^ 30 by norm_num,
      Nat.mul_mod_mul_left]
  rw [h1, four_mul_or_eq_add _ _ (computeFlags_lt v)]
  exact ⟨_, rfl⟩

theorem internFlagsWF_preserved (s : InternState) (v : IRValue)
    (h : InternFlagsWF s) : InternFlagsWF (get_value_id s v).2 := by
  unfold get_value_id
  rcases hf : findId s v with _ | id
  · intro p hp
    rcases List.mem_append.mp hp with hs | hnew
    · exact h p hs
    · have : p = (v, List.length s * BASE % 2 ^ 32 ||| computeFlags v) := by
        simpa using hnew
      rw [this]
      exact fresh_id_shape s v
  · exact h

theorem get_value_id_flags (s : InternState) (v : IRValue)
    (h : InternFlagsWF s) :
    ∃ k, (get_value_id s v).1 = 4 * k + computeFlags v := by
  unfold get_value_id
  rcases hf : findId s v with _ | id
  · exact fresh_id_shape s v
  · unfold findId at hf
    rcases hfind : List.find? (fun p => irValueEq p.1 v) s with _ | p
    · rw [hfind] at hf
      exact absurd hf (by simp)
    · rw [hfind] at hf
      have hpv : irValueEq p.1 v = true := by
        have hs := List.find?_some hfind
        simpa using hs
      have hmem : p ∈ s := List.mem_of_find?_eq_some hfind
      obtain ⟨k, hk⟩ := h p hmem
      refine ⟨k, ?_⟩
      have : p.2 = id := by simpa using hf
      rw [← this, hk, computeFlags_congr p.1 v hpv]

theorem is_pre_state_src_computeFlags (v : IRValue) :
    is_pre_state_src (computeFlags v) =
      decide (v.opcode = IOPCODE_PRE_STATE_SRC) := by
  unfold computeFlags
  rcases hh : isHeapReadOpcode v.opcode with _ | _
  · simp only [hh, Bool.false_eq_true, if_false]
    by_cases hp : v.opcode = IOPCODE_PRE_STATE_SRC
    · simp [hp, is_pre_state_src, IS_PRE_STATE_SRC]
    · simp only [hp, if_false, decide_eq_false hp]
      split <;> simp [is_pre_state_src, IS_PRE_STATE_SRC, IS_BARRIER_SENSITIVE]
  · have hp : v.opcode ≠ IOPCODE_PRE_STATE_SRC := by
      intro he
      rw [he] at hh
      exact absurd hh (by decide)
    simp [hh, is_pre_state_src, IS_PRE_STATE_SRC, IS_BARRIER_SENSITIVE,
      decide_eq_false hp]

theorem is_barrier_sensitive_computeFlags (v : IRValue) :
    is_barrier_sensitive (computeFlags v) =
      (isHeapReadOpcode v.opcode ||
        (!decide (v.opcode = IOPCODE_PRE_STATE_SRC) &&
          v.srcs.any (fun src => is_barrier_sensitive src))) := by
  unfold computeFlags
  rcases hh : isHeapReadOpcode v.opcode with _ | _
  · simp only [hh, Bool.false_eq_true, if_false, Bool.false_or]
    by_cases hp : v.opcode = IOPCODE_PRE_STATE_SRC
    · simp [hp, is_barrier_sensitive, IS_BARRIER_SENSITIVE, IS_PRE_STATE_SRC]
    · simp only [hp, if_false, decide_eq_false hp, Bool.not_false,
        Bool.true_and]
      split <;> simp_all [is_barrier_sensitive, IS_BARRIER_SENSITIVE]
  · simp [is_barrier_sensitive, IS_BARRIER_SENSITIVE]

theorem computeFlags_cases (v : IRValue) :
    computeFlags v = 0 ∨ computeFlags v = IS_PRE_STATE_SRC ∨
      computeFlags v = IS_BARRIER_SENSITIVE := by
  unfold computeFlags
  split
  · exact Or.inr (Or.inr rfl)
  · split
    · exact Or.inr (Or.inl rfl)
    · split
      · exact Or.inr (Or.inr rfl)
      · exact Or.inl rfl

/-- The interner states of non-aborting executions: every fresh insertion
happened below the index bound checked by the `always_assert`, so the
entry at position `i` received id `4 * i + flags`. -/
inductive InternBuilt : InternState → Prop
  | nil : InternBuilt []
  | snoc (s : InternState) (v : IRValue) (h : InternBuilt s)
      (hlen : List.length s < 2 ^ 30) (hfind : findId s v = none) :
      InternBuilt (s ++ [(v, 4 * List.length s + computeFlags v)])

theorem internBuilt_flagsWF (s : InternState) (h : InternBuilt s) :
    InternFlagsWF s := by
  induction h with
  | nil => exact internFlagsWF_nil
  | snoc s v _ hlen hfind ih =>
    intro p hp
    rcases List.mem_append.mp hp with hs | hnew
    · exact ih p hs
    · have hp' : p = (v, 4 * List.length s + computeFlags v) := by
        simpa using hnew
      rw [hp']
      exact ⟨List.length s, rfl⟩

theorem internBuilt_ids_lt (s : InternState) (h : InternBuilt s) :
    ∀ p ∈ s, p.2 < 4 * List.length s := by
  induction h with
  | nil =>
    intro p hp
    exact absurd hp (List.not_mem_nil p)
  | snoc s v _ hlen hfind ih =>
    intro p hp
    rw [List.length_append, List.length_cons, List.length_nil]
    rcases List.mem_append.mp hp with hs | hnew
    · have := ih p hs
      omega
    · have hp' : p = (v, 4 * List.length s + computeFlags v) := by
        simpa using hnew
      rw [hp']
      have := computeFlags_lt v
      simp only
      omega

theorem internBuilt_inj (s : InternState) (h : InternBuilt s) :
    ∀ p q : IRValue × Nat, p ∈ s → q ∈ s → irValueEq p.1 q.1 = false →
      p.2 ≠ q.2 := by
  induction h with
  | nil =>
    intro p _ hp
    exact absurd hp (List.not_mem_nil p)
  | snoc s v hb hlen hfind ih =>
    intro p q hp hq hne
    rcases List.mem_append.mp hp with hps | hpn <;>
      rcases List.mem_append.mp hq with hqs | hqn
    · exact ih p q hps hqs hne
    · have hq' : q = (v, 4 * List.length s + computeFlags v) := by
        simpa using hqn
      have hlt := internBuilt_ids_lt s hb p hps
      rw [hq']
      simp only
      omega
    · have hp' : p = (v, 4 * List.length s + computeFlags v) := by
        simpa using hpn
      have hlt := internBuilt_ids_lt s hb q hqs
      rw [hp']
      simp only
      omega
    · have hp' : p = (v, 4 * List.length s + computeFlags v) := by
        simpa using hpn
      have hq' : q = (v, 4 * List.length s + computeFlags v) := by
        simpa using hqn
      rw [hp', hq'] at hne
      rw [irValueEq_refl v] at hne
      exact absurd hne (by simp)

theorem findId_entry (s : InternState) (v : IRValue) (id : Nat)
    (h : findId s v = some id) :
    ∃ p : IRValue × Nat, p ∈ s ∧ irValueEq p.1 v = true ∧ p.2 = id := by
  unfold findId at h
  rcases hf : List.find? (fun p => irValueEq p.1 v) s with _ | p
  · rw [hf] at h
    exact absurd h (by simp)
  · rw [hf] at h
    refine ⟨p, List.mem_of_find?_eq_some hf, ?_, by simpa using h⟩
    have hs := List.find?_some hf
    simpa using hs

theorem findId_inj (s : InternState) (h : InternBuilt s) (v1 v2 : IRValue)
    (id1 id2 : Nat) (h1 : findId s v1 = some id1)
    (h2 : findId s v2 = some id2) (hne : irValueEq v1 v2 = false) :
    id1 ≠ id2 := by
  obtain ⟨p1, hp1m, hp1e, hp1i⟩ := findId_entry s v1 id1 h1
  obtain ⟨p2, hp2m, hp2e, hp2i⟩ := findId_entry s v2 id2 h2
  have hpe : irValueEq p1.1 p2.1 = false := by
    rcases he : irValueEq p1.1 p2.1 with _ | _
    · rfl
    · have hv1 : irValueEq v1 p2.1 = true :=
        irValueEq_trans v1 p1.1 p2.1 (irValueEq_symm p1.1 v1 hp1e) he
      have hv12 : irValueEq v1 v2 = true :=
        irValueEq_trans v1 p2.1 v2 hv1 hp2e
      rw [hv12] at hne
      exact absurd hne (by simp)
  rw [← hp1i, ← hp2i]
  exact internBuilt_inj s h p1 p2 hp1m hp2m hpe

theorem internBuilt_preserved (s : InternState) (v : IRValue)
    (h : InternBuilt s) (hlen : List.length s < 2 ^ 30) :
    InternBuilt (get_value_id s v).2 := by
  rcases hf : findId s v with _ | id
  · rw [get_value_id_fresh s v hf]
    show InternBuilt
      (s ++ [(v, List.length s * BASE % 2 ^ 32 ||| computeFlags v)])
    have hid : List.length s * BASE % 2 ^ 32 ||| computeFlags v =
        4 * List.length s + computeFlags v := by
      have h30 : (2 : Nat) ^ 30 = 1073741824 := by norm_num
      have h32 : (2 : Nat) ^ 32 = 4294967296 := by norm_num
      have hm : List.length s * BASE % 2 ^ 32 = 4 * List.length s := by
        unfold BASE
        rw [h32]
        omega
      rw [hm, four_mul_or_eq_add _ _ (computeFlags_lt v)]
    rw [hid]
    exact InternBuilt.snoc s v h hlen hf
  · rw [get_value_id_found s v id hf]
    exact h

theorem internBuilt_nil : InternBuilt [] := InternBuilt.nil

theorem findId_after_get_value_id (s : InternState) (v : IRValue) :
    findId (get_value_id s v).2 v = some (get_value_id s v).1 := by
  rcases h : findId s v with _ | id
  · have hnone : List.find? (fun p => irValueEq p.1 v) s = none := by
      unfold findId at h
      rcases hf : List.find? (fun p => irValueEq p.1 v) s with _ | p
      · exact hf
      · rw [hf] at h
        simp at h
    rw [get_value_id_fresh s v h]
    unfold findId
    rw [List.find?_append, hnone]
    simp [List.find?, irValueEq_refl, Option.or]
  · rw [get_value_id_found s v id h]
    exact h

theorem get_value_id_length (s : InternState) (v : IRValue) :
    List.length (get_value_id s v).2 ≤ List.length s + 1 := by
  rcases hf : findId s v with _ | id
  · rw [get_value_id_fresh s v hf]
    simp
  · rw [get_value_id_found s v id hf]
    simp

theorem get_value_id_inj_seq (s : InternState) (v1 v2 : IRValue)
    (h : InternBuilt s) (hlen : List.length s + 2 ≤ 2 ^ 30)
    (hne : irValueEq v1 v2 = false) :
    (get_value_id (get_value_id s v1).2 v2).1 ≠ (get_value_id s v1).1 := by
  have hb1 : InternBuilt (get_value_id s v1).2 :=
    internBuilt_preserved s v1 h (by omega)
  have hl1 : List.length (get_value_id s v1).2 < 2 ^ 30 := by
    have := get_value_id_length s v1
    omega
  have hb2 : InternBuilt (get_value_id (get_value_id s v1).2 v2).2 :=
    internBuilt_preserved _ v2 hb1 hl1
  have hr : InternReaches (get_value_id s v1).2
      (get_value_id (get_value_id s v1).2 v2).2 :=
    InternReaches.step _ _ v2 (InternReaches.refl _)
  have hf1 : findId (get_value_id (get_value_id s v1).2 v2).2 v1 =
      some (get_value_id s v1).1 :=
    findId_stable _ _ v1 _ (findId_after_get_value_id s v1) hr
  have hf2 : findId (get_value_id (get_value_id s v1).2 v2).2 v2 =
      some (get_value_id (get_value_id s v1).2 v2).1 :=
    findId_after_get_value_id _ v2
  have hne' : irValueEq v2 v1 = false := by
    rcases he : irValueEq v2 v1 with _ | _
    · rfl
    · rw [irValueEq_symm v2 v1 he] at hne
      exact absurd hne (by simp)
  exact findId_inj _ hb2 v2 v1 _ _ hf2 hf1 hne'

/-! ### Claim C1: interner determinism -/

/-- C1: values equal under the value-model equality intern to the same id;
a value not already present receives the id `pre-insertion size * BASE`
OR-ed with its flag bits; and once an id has been returned for a value,
every later `get_value_id` call on that value (in any state reachable by
further interning) returns the same id. -/
theorem C1_interner_determinism (s : InternState) (a b : IRValue) :
    (irValueEq a b = true →
      (get_value_id (get_value_id s a).2 b).1 = (get_value_id s a).1) ∧
    (findId s a = none → List.length s < 2 ^ 30 →
      (get_value_id s a).1 = List.length s * BASE ||| computeFlags a) ∧
    (∀ t : InternState, InternReaches (get_value_id s a).2 t →
      (get_value_id t a).1 = (get_value_id s a).1) := by
  refine ⟨fun hab => ?_, fun hnone hlen => ?_, fun t ht => ?_⟩
  · have h1 : findId (get_value_id s a).2 a = some (get_value_id s a).1 :=
      findId_after_get_value_id s a
    have h2 : findId (get_value_id s a).2 b = some (get_value_id s a).1 := by
      rw [← findId_congr _ a b hab]
      exact h1
    rw [get_value_id_found _ b _ h2]
  · rw [get_value_id_fresh s a hnone]
    show List.length s * BASE % 2 ^ 32 ||| computeFlags a =
      List.length s * BASE ||| computeFlags a
    have hm : List.length s * BASE % 2 ^ 32 = List.length s * BASE := by
      unfold BASE
      have h30 : (2 : Nat) ^ 30 = 1073741824 := by norm_num
      have h32 : (2 : Nat) ^ 32 = 4294967296 := by norm_num
      omega
    rw [hm]
  · have h1 : findId t a = some (get_value_id s a).1 :=
      findId_stable _ t a _ (findId_after_get_value_id s a) ht
    rw [get_value_id_found t a _ h1]

/-- Witness for C1 at a concrete value and the empty interner. -/
theorem C1_witness :
    (get_value_id (get_value_id [] sampleValue).2 sampleValue).1 =
      (get_value_id [] sampleValue).1 ∧
    (get_value_id [] sampleValue).1 =
      List.length ([] : InternState) * BASE ||| computeFlags sampleValue := by
  constructor
  · exact (C1_interner_determinism [] sampleValue sampleValue).1 (by decide)
  · exact (C1_interner_determinism [] sampleValue sampleValue).2.1 (by decide)
      (by decide)

/-! ### Claim C2: the barrier-sensitivity flag -/

/-- C2 (counterexample): the claim's characterization of
`IS_BARRIER_SENSITIVE` fails on a pre-state-source value.  The pre-state
value for register 2 has `srcs = [2]`, and `2` has the
`IS_BARRIER_SENSITIVE` bit set, yet the id allocated for the value does
not: `get_value_id` skips the source scan for `IOPCODE_PRE_STATE_SRC`
(whose `srcs` hold a register number, not a value-id). -/
theorem C2_counterexample :
    ¬ (is_barrier_sensitive
        (get_value_id [] (get_pre_state_src_value 2 sampleInsn)).1 = true ↔
      (isHeapReadOpcode (get_pre_state_src_value 2 sampleInsn).opcode = true ∨
        (get_pre_state_src_value 2 sampleInsn).srcs.any
          (fun src => is_barrier_sensitive src) = true)) := by
  decide

/-- C2 (amended): for every value given to the interner, the
`IS_BARRIER_SENSITIVE` flag of the returned id is set iff the value's
opcode is a heap-read opcode, or the value is NOT a pre-state source and
some element of its `srcs` has the flag set.  (Pre-state-source values
never receive the flag; their `srcs` carry register numbers.) -/
theorem C2_amended_barrier_flag (s : InternState) (v : IRValue)
    (h : InternFlagsWF s) :
    is_barrier_sensitive (get_value_id s v).1 =
      (isHeapReadOpcode v.opcode ||
        (!decide (v.opcode = IOPCODE_PRE_STATE_SRC) &&
          v.srcs.any (fun src => is_barrier_sensitive src))) := by
  obtain ⟨k, hk⟩ := get_value_id_flags s v h
  rw [hk, is_barrier_sensitive_four_mul_add k _ (computeFlags_lt v),
    is_barrier_sensitive_computeFlags]

/-- Witness for C2 (amended) at a heap-read value and the empty interner. -/
theorem C2_witness :
    is_barrier_sensitive (get_value_id [] sampleHeapValue).1 =
      (isHeapReadOpcode sampleHeapValue.opcode ||
        (!decide (sampleHeapValue.opcode = IOPCODE_PRE_STATE_SRC) &&
          sampleHeapValue.srcs.any (fun src => is_barrier_sensitive src))) :=
  C2_amended_barrier_flag [] sampleHeapValue internFlagsWF_nil

/-! ### Claim C3: value equality as a tagged union -/

/-- C3 (counterexample): `operator==` compares the payload union as raw
64-bit content with no tag.  A literal-payload value and a type-payload
value whose address bits coincide compare equal, though they do not carry
the same kind of payload. -/
theorem C3_counterexample :
    irValueEq sampleLiteralValue sampleTypeValue = true ∧
    irValueEqSpec sampleLiteralValue sampleTypeValue = false := by
  decide

/-- C3 (amended): equality of two `IRValue`s is determined by the opcode,
the `srcs` sequence, and the RAW 64-bit payload content (untagged); the
hash is consistent with this equality; and same-kind-same-content payloads
do still imply equality. -/
theorem C3_amended_equality_untagged (a b : IRValue) :
    (irValueEq a b = true ↔
      (a.opcode = b.opcode ∧ a.srcs = b.srcs ∧
        payloadBits a.payload = payloadBits b.payload)) ∧
    (irValueEq a b = true → irValueHash a = irValueHash b) ∧
    (irValueEqSpec a b = true → irValueEq a b = true) := by
  refine ⟨irValueEq_iff a b, fun h => ?_, fun h => ?_⟩
  · rw [irValueEq_iff] at h
    unfold irValueHash
    rw [h.1, h.2.1, h.2.2]
  · unfold irValueEqSpec at h
    simp only [Bool.and_eq_true, beq_iff_eq] at h
    rw [irValueEq_iff]
    exact ⟨h.1.1, h.1.2, by rw [h.2]⟩

/-- Witness for C3 (amended): the untagged equality and the hash agree on
the literal/type payload pair. -/
theorem C3_witness :
    irValueEq sampleLiteralValue sampleTypeValue = true ∧
    irValueHash sampleLiteralValue = irValueHash sampleTypeValue := by
  have h := C3_amended_equality_untagged sampleLiteralValue sampleTypeValue
  have he : irValueEq sampleLiteralValue sampleTypeValue = true := by decide
  exact ⟨he, h.2.1 he⟩

/-! ### Claim C10: pre-state ids are barrier-insensitive -/

/-- C10: every interned pre-state-source value-id has the
`IS_BARRIER_SENSITIVE` flag clear, so the barrier aftermath never sets to
top a register whose binding is a pre-state id: such bindings survive the
aftermath unchanged. -/
theorem C10_pre_state_ids_survive_barrier (s : InternState)
    (p : IRValue × Nat) (env : CseEnvironment) (r : Nat)
    (hwf : InternFlagsWF s) (hmem : p ∈ s)
    (hps : is_pre_state_src p.2 = true) :
    is_barrier_sensitive p.2 = false ∧
      (env.ref r = Flat.const p.2 →
        (barrier_aftermath env).ref r = Flat.const p.2) := by
  obtain ⟨k, hk⟩ := hwf p hmem
  have hflt := computeFlags_lt p.1
  rw [hk] at hps ⊢
  rw [is_pre_state_src_four_mul_add k _ hflt] at hps
  have hbs : is_barrier_sensitive (4 * k + computeFlags p.1) = false := by
    rw [is_barrier_sensitive_four_mul_add k _ hflt]
    rcases computeFlags_cases p.1 with h0 | h1 | h2
    · rw [h0] at hps
      exact absurd hps (by decide)
    · rw [h1]
      decide
    · rw [h2] at hps
      exact absurd hps (by decide)
  refine ⟨hbs, fun href => ?_⟩
  have hr : (barrier_aftermath env).ref r =
      (if is_barrier_sensitive (4 * k + computeFlags p.1) then Flat.top
        else Flat.const (4 * k + computeFlags p.1)) := by
    simp [barrier_aftermath, href]
  rw [hr, hbs]
  simp

/-- Witness for C10 at the pre-state value of register 0 in a one-entry
interner. -/
theorem C10_witness :
    is_barrier_sensitive
      ((get_pre_state_src_value 0 sampleInsn,
        (get_value_id [] (get_pre_state_src_value 0 sampleInsn)).1) :
          IRValue × Nat).2 = false := by
  have h := C10_pre_state_ids_survive_barrier
    (get_value_id [] (get_pre_state_src_value 0 sampleInsn)).2
    (get_pre_state_src_value 0 sampleInsn,
      (get_value_id [] (get_pre_state_src_value 0 sampleInsn)).1)
    topEnv 0
    (internFlagsWF_preserved [] _ internFlagsWF_nil)
    (by decide) (by decide)
  exact h.1

/-! ### Claim C4: the barrier aftermath -/

/-- C4: after `analyze_instruction` runs on a barrier-inducing
instruction, the barrier-sensitive definition map is empty (all top), the
barrier-insensitive definition map is exactly what the main transfer step
left (the aftermath does not touch it), and every register whose binding
after the main step is a concrete value-id is set to top when that id is
barrier-sensitive and keeps its binding when it is not. -/
theorem C4_barrier_aftermath (ext : Ext) (insn : IRInstruction)
    (s : InternState) (env : CseEnvironment)
    (h : induces_barrier ext insn = true) :
    (∀ v, (analyze_instruction ext insn s env).2.defBs v = Flat.top) ∧
    (∀ v, (analyze_instruction ext insn s env).2.defNb v =
      (transfer_main ext insn s env).2.defNb v) ∧
    (∀ r vid, (transfer_main ext insn s env).2.ref r = Flat.const vid →
      (analyze_instruction ext insn s env).2.ref r =
        (if is_barrier_sensitive vid then Flat.top else Flat.const vid)) ∧
    (∀ r, (transfer_main ext insn s env).2.ref r ≠ Flat.top →
      ((transfer_main ext insn s env).2.ref r).getConstant = none →
      (analyze_instruction ext insn s env).2.ref r =
        (transfer_main ext insn s env).2.ref r) := by
  have ha : analyze_instruction ext insn s env =
      ((transfer_main ext insn s env).1,
        barrier_aftermath (transfer_main ext insn s env).2) := by
    unfold analyze_instruction
    simp [h]
  rw [ha]
  refine ⟨fun v => rfl, fun v => rfl, fun r vid hr => ?_, fun r hnt hnc => ?_⟩
  · show (barrier_aftermath (transfer_main ext insn s env).2).ref r = _
    simp [barrier_aftermath, hr]
  · show (barrier_aftermath (transfer_main ext insn s env).2).ref r = _
    rcases hc : (transfer_main ext insn s env).2.ref r with _ | vid
    · simp [barrier_aftermath, hc]
    · rw [hc] at hnc
      exact absurd hnc (by simp [Flat.getConstant])
    · exact absurd hc hnt

/-- Witness for C4: a monitor-enter on a state whose registers hold the
barrier-sensitive id 2. -/
theorem C4_witness :
    (analyze_instruction sampleExt sampleBarrierInsn [] envBarrierW).2.defBs
      0 = Flat.top ∧
    (analyze_instruction sampleExt sampleBarrierInsn [] envBarrierW).2.ref
      0 = Flat.top := by
  have h := C4_barrier_aftermath sampleExt sampleBarrierInsn [] envBarrierW
    (by decide)
  refine ⟨h.1 0, ?_⟩
  have h2 := h.2.2.1 0 2 (by decide)
  rw [h2]
  decide

/-! ### Claim C9: `patch` with and without forwarding records -/

/-- C9: `patch` reports a change iff the analysis produced at least one
forwarding record; with an empty forwarding list it returns `false`,
leaves the CFG (including the scratch-register allocator) and the
statistics untouched, and is independent of the type-inference oracle. -/
theorem C9_patch_changed_iff (ti : TypeOracle) (cfg : ControlFlowGraph)
    (m_forward : List Forward) (m_stats : Stats) :
    (m_forward = [] →
      patch ti cfg m_forward m_stats = some (false, cfg, m_stats) ∧
      ∀ ti' : TypeOracle, patch ti' cfg m_forward m_stats =
        patch ti cfg m_forward m_stats) ∧
    (∀ b cfg' stats',
      patch ti cfg m_forward m_stats = some (b, cfg', stats') →
      (b = true ↔ m_forward ≠ []) ∧
      (m_forward = [] → cfg' = cfg ∧ stats' = m_stats)) := by
  constructor
  · intro he
    subst he
    exact ⟨by simp [patch], fun ti' => by simp [patch]⟩
  · intro b cfg' stats' hp
    by_cases he : m_forward = []
    · subst he
      simp [patch] at hp
      exact ⟨by simp [← hp.1], fun _ => ⟨hp.2.1.symm, hp.2.2.symm⟩⟩
    · have hlen : ¬ m_forward.length = 0 := by
        simpa [List.length_eq_zero] using he
      unfold patch at hp
      rw [if_neg hlen] at hp
      rcases hg : gather_temps ti m_forward [] [] cfg with _ | g
      · rw [hg] at hp
        exact absurd hp (by simp)
      · rw [hg] at hp
        dsimp only at hp
        rcases hu : insert_use_moves g.1 m_forward g.2.2 with _ | cfg2
        · rw [hu] at hp
          exact absurd hp (by simp)
        · rw [hu] at hp
          dsimp only at hp
          rcases hd : insert_def_moves g.1 cfg2 with _ | cfg3
          · rw [hd] at hp
            exact absurd hp (by simp)
          · rw [hd] at hp
            have hb : b = true := by
              have := hp
              simp at this
              exact this.1
            exact ⟨by rw [hb]; exact ⟨fun _ => he, fun _ => rfl⟩,
              fun hee => absurd hee he⟩

/-- Witness for C9: the empty forwarding list on a concrete CFG. -/
theorem C9_witness :
    patch (fun _ _ => Flat.const TypeElement.NONREFERENCE)
      { insns := [sampleInsn], nextTemp := 5, inserted := [] } []
      { results_captured := 3, instructions_eliminated := 4 } =
    some (false, { insns := [sampleInsn], nextTemp := 5, inserted := [] },
      { results_captured := 3, instructions_eliminated := 4 }) :=
  ((C9_patch_changed_iff (fun _ _ => Flat.const TypeElement.NONREFERENCE)
    { insns := [sampleInsn], nextTemp := 5, inserted := [] } []
    { results_captured := 3, instructions_eliminated := 4 }).1 rfl).1

/-! ### Claim C6: shape of forwarding records -/

theorem collect_block_forward_ok (ext : Ext) (insns : List IRInstruction) :
    ∀ (s : InternState) (env : CseEnvironment) (acc : List Forward)
      (r : InternState × CseEnvironment × List Forward),
      collect_block ext insns s env acc = some r →
      (∀ f ∈ acc, ForwardOk f) → ∀ f ∈ r.2.2, ForwardOk f := by
  induction insns with
  | nil =>
    intro s env acc r hrun hacc
    unfold collect_block at hrun
    obtain ⟨a, b, c⟩ := r
    simp only [Option.some.injEq, Prod.mk.injEq] at hrun
    obtain ⟨-, -, hc⟩ := hrun
    rw [← hc]
    exact hacc
  | cons insn rest ih =>
    intro s env acc r hrun hacc
    unfold collect_block at hrun
    dsimp only at hrun
    split at hrun
    · exact ih _ _ _ _ hrun hacc
    · split at hrun
      · exact ih _ _ _ _ hrun hacc
      · next value_id hvc =>
        split at hrun
        · exact absurd hrun (by simp)
        · next hps =>
          split at hrun
          · exact ih _ _ _ _ hrun hacc
          · next earlier_insn hdc =>
            split at hrun
            · exact ih _ _ _ _ hrun hacc
            · split at hrun
              · exact ih _ _ _ _ hrun hacc
              · next hne hlp =>
                refine ih _ _ _ _ hrun ?_
                intro f hf
                rcases List.mem_append.mp hf with hfa | hfn
                · exact hacc f hfa
                · have hf' : f = { earlier_insn := earlier_insn, insn := insn } := by
                    simpa using hfn
                  subst hf'
                  next hguard =>
                    have hg : insn.dest.isSome = true ∧
                        is_move insn.opcode = false ∧
                        is_const insn.opcode = false := by
                      rcases hd : insn.dest.isSome with _ | _ <;>
                        rcases hm : is_move insn.opcode with _ | _ <;>
                          rcases hc : is_const insn.opcode with _ | _ <;>
                            simp_all
                    exact ⟨hg.1, hg.2.1, hg.2.2, hne, by simpa using hlp⟩

/-- C6: every forwarding record emitted by the redundancy collector has a
later instruction with a destination that is neither a move nor a
constant load, an earlier instruction different from the later one, and an
earlier instruction that is never a load-parameter. -/
theorem C6_forwarding_records (ext : Ext)
    (blocks : List (CseEnvironment × List IRInstruction)) (s : InternState)
    (r : InternState × List Forward)
    (hrun : collect ext blocks s [] = some r) :
    ∀ f ∈ r.2, ForwardOk f := by
  suffices h : ∀ (blocks' : List (CseEnvironment × List IRInstruction))
      (s' : InternState) (acc : List Forward)
      (r' : InternState × List Forward),
      collect ext blocks' s' acc = some r' →
      (∀ f ∈ acc, ForwardOk f) → ∀ f ∈ r'.2, ForwardOk f by
    exact h blocks s [] r hrun (by intro f hf; exact absurd hf (by simp))
  intro blocks'
  induction blocks' with
  | nil =>
    intro s' acc r' hrun' hacc
    unfold collect at hrun'
    obtain ⟨a, b⟩ := r'
    simp only [Option.some.injEq, Prod.mk.injEq] at hrun'
    rw [← hrun'.2]
    exact hacc
  | cons blk rest ih =>
    intro s' acc r' hrun' hacc
    obtain ⟨entry, insns⟩ := blk
    unfold collect at hrun'
    rcases hcb : collect_block ext insns s' entry acc with _ | rb
    · rw [hcb] at hrun'
      exact absurd hrun' (by simp)
    · rw [hcb] at hrun'
      exact ih _ _ _ hrun'
        (collect_block_forward_ok ext insns s' entry acc rb hcb hacc)

/-- Witness for C6 on the concrete two-instruction straight-line block. -/
theorem C6_witness :
    ForwardOk { earlier_insn := sampleInsn, insn := sampleInsn2 } := by
  have h := C6_forwarding_records sampleExt
    [(topEnv, [sampleInsn, sampleInsn2])] []
    ([({ opcode := IOPCODE_PRE_STATE_SRC, srcs := [0],
          payload := Payload.positional_insn 11 }, 1),
      ({ opcode := IOPCODE_PRE_STATE_SRC, srcs := [1],
          payload := Payload.positional_insn 11 }, 5),
      ({ opcode := OPCODE_ADD_INT, srcs := [1, 5],
          payload := Payload.literal 0 }, 8)],
     [{ earlier_insn := sampleInsn, insn := sampleInsn2 }])
    (by decide)
  exact h { earlier_insn := sampleInsn, insn := sampleInsn2 } (by decide)

/-! ### Claim C5: pre-state source minting -/

theorem irValueEq_pre_state_src_false (r1 r2 : Nat)
    (i1 i2 : IRInstruction) (h : r1 ≠ r2 ∨ i1.id ≠ i2.id) :
    irValueEq (get_pre_state_src_value r1 i1)
      (get_pre_state_src_value r2 i2) = false := by
  rcases he : irValueEq (get_pre_state_src_value r1 i1)
      (get_pre_state_src_value r2 i2) with _ | _
  · rfl
  · exfalso
    rw [irValueEq_iff] at he
    obtain ⟨-, hs, hp⟩ := he
    simp only [get_pre_state_src_value, payloadBits, List.cons.injEq,
      and_true] at hs hp
    rcases h with h | h
    · exact absurd hs h
    · exact absurd hp h

theorem computeFlags_pre_state (r : Nat) (insn : IRInstruction) :
    computeFlags (get_pre_state_src_value r insn) = IS_PRE_STATE_SRC := rfl

theorem findId_flags (s : InternState) (v : IRValue) (id : Nat)
    (h : InternFlagsWF s) (hf : findId s v = some id) :
    ∃ k, id = 4 * k + computeFlags v := by
  obtain ⟨p, hm, he, hi⟩ := findId_entry s v id hf
  obtain ⟨k, hk⟩ := h p hm
  exact ⟨k, by rw [← hi, hk, computeFlags_congr p.1 v he]⟩

theorem lookupPre_append_left (pre t : List (Nat × Nat)) (r vid : Nat)
    (h : lookupPre pre r = some vid) : lookupPre (pre ++ t) r = some vid := by
  unfold lookupPre at h ⊢
  rw [List.find?_append]
  rcases hf : List.find? (fun p => p.1 == r) pre with _ | p
  · rw [hf] at h
    exact absurd h (by simp)
  · rw [hf] at h ⊢
    exact h

theorem lookupPre_append_new (pre : List (Nat × Nat)) (r vid : Nat)
    (h : lookupPre pre r = none) :
    lookupPre (pre ++ [(r, vid)]) r = some vid := by
  have hnone : List.find? (fun p => p.1 == r) pre = none := by
    unfold lookupPre at h
    rcases hf : List.find? (fun p => p.1 == r) pre with _ | p
    · exact hf
    · rw [hf] at h
      simp at h
  unfold lookupPre
  rw [List.find?_append, hnone]
  simp [List.find?]

theorem lookupPre_append_cases (pre : List (Nat × Nat)) (a b r vid : Nat)
    (h : lookupPre (pre ++ [(a, b)]) r = some vid) :
    lookupPre pre r = some vid ∨ (r = a ∧ vid = b) := by
  unfold lookupPre at h ⊢
  rw [List.find?_append] at h
  rcases hf : List.find? (fun p => p.1 == r) pre with _ | p
  · rw [hf] at h
    have h2 : Option.map (fun p => p.2)
        (List.find? (fun p => p.1 == r) [(a, b)]) = some vid := by
      rw [show ((none : Option (Nat × Nat)).or
        (List.find? (fun p => p.1 == r) [(a, b)])) =
          List.find? (fun p => p.1 == r) [(a, b)] from rfl] at h
      exact h
    rcases hfs : List.find? (fun p => p.1 == r) [(a, b)] with _ | q
    · rw [hfs] at h2
      exact absurd h2 (by simp)
    · rw [hfs] at h2
      have hq := List.find?_some hfs
      have hqm : q ∈ [(a, b)] := List.mem_of_find?_eq_some hfs
      have hq' : q = (a, b) := by simpa using hqm
      subst hq'
      right
      constructor
      · have hab : a == r := by simpa using hq
        exact (beq_iff_eq.mp hab).symm
      · have : b = vid := by simpa using h2
        exact this.symm
  · rw [hf] at h
    left
    rw [hf]
    exact h

theorem process_srcs_cons_const (insn : IRInstruction)
    (refv : Nat → Flat Nat) (reg : Nat) (rest : List Nat)
    (pre : List (Nat × Nat)) (s : InternState) (c : Nat)
    (hc : (refv reg).getConstant = some c) :
    process_srcs insn refv (reg :: rest) pre s =
      ((process_srcs insn refv rest pre s).1.cons c,
        (process_srcs insn refv rest pre s).2.1,
        (process_srcs insn refv rest pre s).2.2) := by
  conv_lhs => unfold process_srcs
  rw [hc]

theorem process_srcs_cons_cached (insn : IRInstruction)
    (refv : Nat → Flat Nat) (reg : Nat) (rest : List Nat)
    (pre : List (Nat × Nat)) (s : InternState) (vid : Nat)
    (hc : (refv reg).getConstant = none)
    (hl : lookupPre pre reg = some vid) :
    process_srcs insn refv (reg :: rest) pre s =
      ((process_srcs insn refv rest pre s).1.cons vid,
        (process_srcs insn refv rest pre s).2.1,
        (process_srcs insn refv rest pre s).2.2) := by
  conv_lhs => unfold process_srcs
  rw [hc, hl]

theorem process_srcs_cons_mint (insn : IRInstruction)
    (refv : Nat → Flat Nat) (reg : Nat) (rest : List Nat)
    (pre : List (Nat × Nat)) (s : InternState)
    (hc : (refv reg).getConstant = none)
    (hl : lookupPre pre reg = none) :
    process_srcs insn refv (reg :: rest) pre s =
      ((process_srcs insn refv rest
          (pre ++ [(reg, (get_value_id s (get_pre_state_src_value reg insn)).1)])
          (get_value_id s (get_pre_state_src_value reg insn)).2).1.cons
            (get_value_id s (get_pre_state_src_value reg insn)).1,
        (process_srcs insn refv rest
          (pre ++ [(reg, (get_value_id s (get_pre_state_src_value reg insn)).1)])
          (get_value_id s (get_pre_state_src_value reg insn)).2).2.1,
        (process_srcs insn refv rest
          (pre ++ [(reg, (get_value_id s (get_pre_state_src_value reg insn)).1)])
          (get_value_id s (get_pre_state_src_value reg insn)).2).2.2) := by
  conv_lhs => unfold process_srcs
  rw [hc, hl]

theorem process_srcs_nil (insn : IRInstruction) (refv : Nat → Flat Nat)
    (pre : List (Nat × Nat)) (s : InternState) :
    process_srcs insn refv [] pre s = ([], pre, s) := rfl

theorem process_srcs_extends (insn : IRInstruction) (refv : Nat → Flat Nat) :
    ∀ (l : List Nat) (pre : List (Nat × Nat)) (s : InternState),
      ∃ t, (process_srcs insn refv l pre s).2.2 = s ++ t := by
  intro l
  induction l with
  | nil =>
    intro pre s
    exact ⟨[], by rw [process_srcs_nil]; exact (List.append_nil s).symm⟩
  | cons reg rest ih =>
    intro pre s
    rcases hc : (refv reg).getConstant with _ | c
    · rcases hl : lookupPre pre reg with _ | vid
      · rw [process_srcs_cons_mint insn refv reg rest pre s hc hl]
        obtain ⟨u, hu⟩ := get_value_id_extends s (get_pre_state_src_value reg insn)
        obtain ⟨t, ht⟩ := ih
          (pre ++ [(reg, (get_value_id s (get_pre_state_src_value reg insn)).1)])
          (get_value_id s (get_pre_state_src_value reg insn)).2
        exact ⟨u ++ t, by
          show (process_srcs insn refv rest _ _).2.2 = s ++ (u ++ t)
          rw [ht, hu, List.append_assoc]⟩
      · rw [process_srcs_cons_cached insn refv reg rest pre s vid hc hl]
        exact ih pre s
    · rw [process_srcs_cons_const insn refv reg rest pre s c hc]
      exact ih pre s

theorem process_srcs_interner_length (insn : IRInstruction)
    (refv : Nat → Flat Nat) :
    ∀ (l : List Nat) (pre : List (Nat × Nat)) (s : InternState),
      List.length (process_srcs insn refv l pre s).2.2 ≤
        List.length s + List.length l := by
  intro l
  induction l with
  | nil =>
    intro pre s
    rw [process_srcs_nil]
    simp
  | cons reg rest ih =>
    intro pre s
    rw [List.length_cons]
    rcases hc : (refv reg).getConstant with _ | c
    · rcases hl : lookupPre pre reg with _ | vid
      · rw [process_srcs_cons_mint insn refv reg rest pre s hc hl]
        have h1 := get_value_id_length s (get_pre_state_src_value reg insn)
        have h2 := ih
          (pre ++ [(reg, (get_value_id s (get_pre_state_src_value reg insn)).1)])
          (get_value_id s (get_pre_state_src_value reg insn)).2
        show List.length (process_srcs insn refv rest _ _).2.2 ≤ _
        omega
      · rw [process_srcs_cons_cached insn refv reg rest pre s vid hc hl]
        have h2 := ih pre s
        show List.length (process_srcs insn refv rest pre s).2.2 ≤ _
        omega
    · rw [process_srcs_cons_const insn refv reg rest pre s c hc]
      have h2 := ih pre s
      show List.length (process_srcs insn refv rest pre s).2.2 ≤ _
      omega

theorem process_srcs_built (insn : IRInstruction) (refv : Nat → Flat Nat) :
    ∀ (l : List Nat) (pre : List (Nat × Nat)) (s : InternState),
      InternBuilt s → List.length s + List.length l ≤ 2 ^ 30 →
      InternBuilt (process_srcs insn refv l pre s).2.2 := by
  intro l
  induction l with
  | nil =>
    intro pre s hb _
    rw [process_srcs_nil]
    exact hb
  | cons reg rest ih =>
    intro pre s hb hlen
    rw [List.length_cons] at hlen
    rcases hc : (refv reg).getConstant with _ | c
    · rcases hl : lookupPre pre reg with _ | vid
      · rw [process_srcs_cons_mint insn refv reg rest pre s hc hl]
        have hb' := internBuilt_preserved s (get_pre_state_src_value reg insn)
          hb (by omega)
        have hl' := get_value_id_length s (get_pre_state_src_value reg insn)
        exact ih _ _ hb' (by omega)
      · rw [process_srcs_cons_cached insn refv reg rest pre s vid hc hl]
        exact ih pre s hb (by omega)
    · rw [process_srcs_cons_const insn refv reg rest pre s c hc]
      exact ih pre s hb (by omega)

theorem process_srcs_cache_stable (insn : IRInstruction)
    (refv : Nat → Flat Nat) :
    ∀ (l : List Nat) (pre : List (Nat × Nat)) (s : InternState) (r vid : Nat),
      lookupPre pre r = some vid →
      lookupPre (process_srcs insn refv l pre s).2.1 r = some vid := by
  intro l
  induction l with
  | nil =>
    intro pre s r vid h
    rw [process_srcs_nil]
    exact h
  | cons reg rest ih =>
    intro pre s r vid h
    rcases hc : (refv reg).getConstant with _ | c
    · rcases hl : lookupPre pre reg with _ | vid'
      · rw [process_srcs_cons_mint insn refv reg rest pre s hc hl]
        exact ih _ _ r vid (lookupPre_append_left pre _ r vid h)
      · rw [process_srcs_cons_cached insn refv reg rest pre s vid' hc hl]
        exact ih pre s r vid h
    · rw [process_srcs_cons_const insn refv reg rest pre s c hc]
      exact ih pre s r vid h

theorem process_srcs_cache_sound (insn : IRInstruction)
    (refv : Nat → Flat Nat) :
    ∀ (l : List Nat) (pre : List (Nat × Nat)) (s : InternState),
      (∀ r vid, lookupPre pre r = some vid →
        findId s (get_pre_state_src_value r insn) = some vid) →
      ∀ r vid, lookupPre (process_srcs insn refv l pre s).2.1 r = some vid →
        findId (process_srcs insn refv l pre s).2.2
          (get_pre_state_src_value r insn) = some vid := by
  intro l
  induction l with
  | nil =>
    intro pre s hpre r vid h
    rw [process_srcs_nil] at h ⊢
    exact hpre r vid h
  | cons reg rest ih =>
    intro pre s hpre r vid h
    rcases hc : (refv reg).getConstant with _ | c
    · rcases hl : lookupPre pre reg with _ | vid'
      · rw [process_srcs_cons_mint insn refv reg rest pre s hc hl] at h ⊢
        refine ih _ _ ?_ r vid h
        intro r' vid' hlp
        rcases lookupPre_append_cases pre reg
            (get_value_id s (get_pre_state_src_value reg insn)).1 r' vid' hlp
          with hold | ⟨hr, hv⟩
        · obtain ⟨u, hu⟩ :=
            get_value_id_extends s (get_pre_state_src_value reg insn)
          rw [hu]
          exact findId_append_left s u _ vid' (hpre r' vid' hold)
        · subst hr
          rw [hv]
          exact findId_after_get_value_id s (get_pre_state_src_value r' insn)
      · rw [process_srcs_cons_cached insn refv reg rest pre s vid' hc hl]
          at h ⊢
        exact ih pre s hpre r vid h
    · rw [process_srcs_cons_const insn refv reg rest pre s c hc] at h ⊢
      exact ih pre s hpre r vid h

theorem process_srcs_coverage (insn : IRInstruction)
    (refv : Nat → Flat Nat) :
    ∀ (l : List Nat) (pre : List (Nat × Nat)) (s : InternState) (r : Nat),
      r ∈ l → (refv r).getConstant = none →
      ∃ vid, lookupPre (process_srcs insn refv l pre s).2.1 r = some vid := by
  intro l
  induction l with
  | nil =>
    intro pre s r hr
    exact absurd hr (List.not_mem_nil r)
  | cons reg rest ih =>
    intro pre s r hr hrc
    rcases List.mem_cons.mp hr with heq | hmem
    · subst heq
      rcases hl : lookupPre pre r with _ | vid
      · rw [process_srcs_cons_mint insn refv r rest pre s hrc hl]
        refine ⟨(get_value_id s (get_pre_state_src_value r insn)).1, ?_⟩
        exact process_srcs_cache_stable insn refv rest _ _ r _
          (lookupPre_append_new pre r _ hl)
      · rw [process_srcs_cons_cached insn refv r rest pre s vid hrc hl]
        exact ⟨vid, process_srcs_cache_stable insn refv rest pre s r vid hl⟩
    · rcases hc : (refv reg).getConstant with _ | c
      · rcases hl : lookupPre pre reg with _ | vid'
        · rw [process_srcs_cons_mint insn refv reg rest pre s hc hl]
          exact ih _ _ r hmem hrc
        · rw [process_srcs_cons_cached insn refv reg rest pre s vid' hc hl]
          exact ih pre s r hmem hrc
      · rw [process_srcs_cons_const insn refv reg rest pre s c hc]
        exact ih pre s r hmem hrc

theorem process_srcs_fst_length (insn : IRInstruction)
    (refv : Nat → Flat Nat) :
    ∀ (l : List Nat) (pre : List (Nat × Nat)) (s : InternState),
      List.length (process_srcs insn refv l pre s).1 = List.length l := by
  intro l
  induction l with
  | nil =>
    intro pre s
    rw [process_srcs_nil]
  | cons reg rest ih =>
    intro pre s
    rcases hc : (refv reg).getConstant with _ | c
    · rcases hl : lookupPre pre reg with _ | vid
      · rw [process_srcs_cons_mint insn refv reg rest pre s hc hl]
        show List.length (_ :: (process_srcs insn refv rest _ _).1) = _
        rw [List.length_cons, List.length_cons, ih]
      · rw [process_srcs_cons_cached insn refv reg rest pre s vid hc hl]
        show List.length (_ :: (process_srcs insn refv rest pre s).1) = _
        rw [List.length_cons, List.length_cons, ih]
    · rw [process_srcs_cons_const insn refv reg rest pre s c hc]
      show List.length (_ :: (process_srcs insn refv rest pre s).1) = _
      rw [List.length_cons, List.length_cons, ih]

theorem process_srcs_get (insn : IRInstruction) (refv : Nat → Flat Nat) :
    ∀ (l : List Nat) (pre : List (Nat × Nat)) (s : InternState) (i : Nat),
      i < List.length l →
      (process_srcs insn refv l pre s).1.getD i 0 =
        srcEntry refv (process_srcs insn refv l pre s).2.1 (l.getD i 0) := by
  intro l
  induction l with
  | nil =>
    intro pre s i hi
    exact absurd hi (by simp)
  | cons reg rest ih =>
    intro pre s i hi
    rcases hc : (refv reg).getConstant with _ | c
    · rcases hl : lookupPre pre reg with _ | vid
      · rw [process_srcs_cons_mint insn refv reg rest pre s hc hl]
        match i with
        | 0 =>
          show (get_value_id s (get_pre_state_src_value reg insn)).1 =
            srcEntry refv _ reg
          unfold srcEntry
          rw [hc]
          have hst := process_srcs_cache_stable insn refv rest
            (pre ++
              [(reg, (get_value_id s (get_pre_state_src_value reg insn)).1)])
            (get_value_id s (get_pre_state_src_value reg insn)).2 reg
            (get_value_id s (get_pre_state_src_value reg insn)).1
            (lookupPre_append_new pre reg _ hl)
          rw [hst]
          rfl
        | i + 1 =>
          show (process_srcs insn refv rest _ _).1.getD i 0 =
            srcEntry refv _ (rest.getD i 0)
          exact ih _ _ i (Nat.lt_of_succ_lt_succ hi)
      · rw [process_srcs_cons_cached insn refv reg rest pre s vid hc hl]
        match i with
        | 0 =>
          show vid = srcEntry refv _ reg
          unfold srcEntry
          rw [hc]
          rw [process_srcs_cache_stable insn refv rest pre s reg vid hl]
          rfl
        | i + 1 =>
          show (process_srcs insn refv rest pre s).1.getD i 0 =
            srcEntry refv _ (rest.getD i 0)
          exact ih pre s i (Nat.lt_of_succ_lt_succ hi)
    · rw [process_srcs_cons_const insn refv reg rest pre s c hc]
      match i with
      | 0 =>
        show c = srcEntry refv _ reg
        unfold srcEntry
        rw [hc]
      | i + 1 =>
        show (process_srcs insn refv rest pre s).1.getD i 0 =
          srcEntry refv _ (rest.getD i 0)
        exact ih pre s i (Nat.lt_of_succ_lt_succ hi)

theorem get_value_interner (ext : Ext) (insn : IRInstruction)
    (s : InternState) (env : CseEnvironment) :
    (get_value ext insn s env).2.1 =
      (process_srcs insn env.ref insn.srcs [] s).2.2 := rfl

theorem get_value_env (ext : Ext) (insn : IRInstruction) (s : InternState)
    (env : CseEnvironment) :
    (get_value ext insn s env).2.2 =
      (if (process_srcs insn env.ref insn.srcs [] s).2.1.isEmpty then env
        else
          { env with
            ref := fun reg =>
              match lookupPre (process_srcs insn env.ref insn.srcs [] s).2.1
                  reg with
              | some vid => Flat.const vid
              | none => env.ref reg }) := rfl

/-- C5: every source register whose binding is top is given a freshly
minted pre-state value anchored at the instruction, whose id is written
back into the register environment; distinct top registers of one
instruction receive distinct ids; the same register occurring twice in one
instruction receives the same operand id; and pre-state values anchored at
distinct instructions are never interned to the same id. -/
theorem C5_pre_state_minting (ext : Ext) (insn : IRInstruction)
    (s : InternState) (env : CseEnvironment) (hb : InternBuilt s)
    (hlen : List.length s + List.length insn.srcs ≤ 2 ^ 30) :
    (∀ r, r ∈ insn.srcs → env.ref r = Flat.top →
      ∃ vid, (get_value ext insn s env).2.2.ref r = Flat.const vid ∧
        is_pre_state_src vid = true ∧
        findId (get_value ext insn s env).2.1
          (get_pre_state_src_value r insn) = some vid) ∧
    (∀ r1 r2 vid1 vid2, r1 ∈ insn.srcs → r2 ∈ insn.srcs → r1 ≠ r2 →
      env.ref r1 = Flat.top → env.ref r2 = Flat.top →
      (get_value ext insn s env).2.2.ref r1 = Flat.const vid1 →
      (get_value ext insn s env).2.2.ref r2 = Flat.const vid2 →
      vid1 ≠ vid2) ∧
    (∀ i j, i < List.length insn.srcs → j < List.length insn.srcs →
      insn.srcs.getD i 0 = insn.srcs.getD j 0 →
      (process_srcs insn env.ref insn.srcs [] s).1.getD i 0 =
        (process_srcs insn env.ref insn.srcs [] s).1.getD j 0) ∧
    (∀ (J : IRInstruction) (rI rJ : Nat), insn.id ≠ J.id →
      List.length s + 2 ≤ 2 ^ 30 →
      (get_value_id (get_value_id s (get_pre_state_src_value rI insn)).2
        (get_pre_state_src_value rJ J)).1 ≠
        (get_value_id s (get_pre_state_src_value rI insn)).1) := by
  have hbP : InternBuilt (process_srcs insn env.ref insn.srcs [] s).2.2 :=
    process_srcs_built insn env.ref insn.srcs [] s hb hlen
  have hfwP : InternFlagsWF (process_srcs insn env.ref insn.srcs [] s).2.2 :=
    internBuilt_flagsWF _ hbP
  have hkey : ∀ r, r ∈ insn.srcs → env.ref r = Flat.top →
      ∃ vid, (get_value ext insn s env).2.2.ref r = Flat.const vid ∧
        is_pre_state_src vid = true ∧
        findId (get_value ext insn s env).2.1
          (get_pre_state_src_value r insn) = some vid := by
    intro r hr htop
    have hrc : (env.ref r).getConstant = none := by
      rw [htop]
      rfl
    obtain ⟨vid, hvid⟩ :=
      process_srcs_coverage insn env.ref insn.srcs [] s r hr hrc
    have hfind : findId (process_srcs insn env.ref insn.srcs [] s).2.2
        (get_pre_state_src_value r insn) = some vid := by
      refine process_srcs_cache_sound insn env.ref insn.srcs [] s ?_ r vid hvid
      intro r' vid' h'
      exact absurd h' (by simp [lookupPre])
    have hne : (process_srcs insn env.ref insn.srcs [] s).2.1.isEmpty =
        false := by
      rcases he : (process_srcs insn env.ref insn.srcs [] s).2.1 with _ | ⟨p, t⟩
      · rw [he] at hvid
        exact absurd hvid (by simp [lookupPre])
      · rfl
    refine ⟨vid, ?_, ?_, ?_⟩
    · rw [get_value_env, hne]
      show (match lookupPre (process_srcs insn env.ref insn.srcs [] s).2.1 r
          with
        | some vid => Flat.const vid
        | none => env.ref r) = Flat.const vid
      rw [hvid]
    · obtain ⟨k, hk⟩ := findId_flags _ _ vid hfwP hfind
      rw [computeFlags_pre_state] at hk
      rw [hk, is_pre_state_src_four_mul_add k _ (by decide)]
      decide
    · rw [get_value_interner]
      exact hfind
  refine ⟨hkey, ?_, ?_, ?_⟩
  · intro r1 r2 vid1 vid2 hr1 hr2 hne ht1 ht2 hc1 hc2
    obtain ⟨v1, hv1, -, hf1⟩ := hkey r1 hr1 ht1
    obtain ⟨v2, hv2, -, hf2⟩ := hkey r2 hr2 ht2
    rw [hc1] at hv1
    rw [hc2] at hv2
    have hv1' : v1 = vid1 := by
      cases hv1
      rfl
    have hv2' : v2 = vid2 := by
      cases hv2
      rfl
    rw [← hv1', ← hv2']
    rw [get_value_interner] at hf1 hf2
    exact findId_inj _ hbP _ _ v1 v2 hf1 hf2
      (irValueEq_pre_state_src_false r1 r2 insn insn (Or.inl hne))
  · intro i j hi hj hget
    rw [process_srcs_get insn env.ref insn.srcs [] s i hi,
      process_srcs_get insn env.ref insn.srcs [] s j hj, hget]
  · intro J rI rJ hJ hlen2
    exact get_value_id_inj_seq s (get_pre_state_src_value rI insn)
      (get_pre_state_src_value rJ J) hb hlen2
      (irValueEq_pre_state_src_false rI rJ insn J (Or.inr hJ))

/-- Witness for C5 on the concrete addition with both operands unbound. -/
theorem C5_witness :
    (get_value sampleExt sampleInsn [] topEnv).2.2.ref 0 = Flat.const 1 ∧
    is_pre_state_src 1 = true := by
  have h := C5_pre_state_minting sampleExt sampleInsn [] topEnv
    internBuilt_nil (by decide)
  obtain ⟨vid, hv, hp, hf⟩ := h.1 0 (by decide) (by decide)
  have hvid : vid = 1 := by
    have : findId (get_value sampleExt sampleInsn [] topEnv).2.1
        (get_pre_state_src_value 0 sampleInsn) = some 1 := by decide
    rw [this] at hf
    cases hf
    rfl
  subst hvid
  exact ⟨hv, hp⟩

/-! ### Claim C8: commutativity unification -/

theorem insertionSort_pair (a b : Nat) :
    List.insertionSort (· ≤ ·) [a, b] = List.insertionSort (· ≤ ·) [b, a] := by
  by_cases hab : a ≤ b <;> by_cases hba : b ≤ a <;>
    simp [List.insertionSort, List.orderedInsert, hab, hba]
  · exact ⟨Nat.le_antisymm hab hba, Nat.le_antisymm hba hab⟩
  · omega

theorem get_value_value (ext : Ext) (insn : IRInstruction) (s : InternState)
    (env : CseEnvironment) :
    (get_value ext insn s env).1 =
      { opcode := insn.opcode
        srcs :=
          if is_commutative insn.opcode then
            List.insertionSort (· ≤ ·)
              (process_srcs insn env.ref insn.srcs [] s).1
          else (process_srcs insn env.ref insn.srcs [] s).1
        payload := selectPayload ext insn } := rfl

theorem get_value_id_domain_eq (ext : Ext) (insn : IRInstruction)
    (s : InternState) (env : CseEnvironment) :
    get_value_id_domain ext insn s env =
      (Flat.const (get_value_id (get_value ext insn s env).2.1
          (get_value ext insn s env).1).1,
        (get_value_id (get_value ext insn s env).2.1
          (get_value ext insn s env).1).2,
        (get_value ext insn s env).2.2) := rfl

/-- C8: the operand value-id sequence of a commutative instruction is
sorted ascending before interning; two instructions with the same
commutative opcode, the same payload, and the same bound operand pair in
swapped order intern to the same value-id; and in the concrete
straight-line method the second computation yields exactly one forwarding
record. -/
theorem C8_commutative_unification :
    (∀ (ext : Ext) (insn : IRInstruction) (s : InternState)
      (env : CseEnvironment), is_commutative insn.opcode = true →
      List.Sorted (· ≤ ·) (get_value ext insn s env).1.srcs) ∧
    (∀ (ext : Ext) (insn1 insn2 : IRInstruction) (s : InternState)
      (env : CseEnvironment) (r1 r2 va vb : Nat),
      is_commutative insn1.opcode = true →
      insn1.opcode = insn2.opcode →
      insn1.srcs = [r1, r2] → insn2.srcs = [r2, r1] →
      env.ref r1 = Flat.const va → env.ref r2 = Flat.const vb →
      selectPayload ext insn1 = selectPayload ext insn2 →
      (get_value_id_domain ext insn2
        (get_value_id_domain ext insn1 s env).2.1
        (get_value_id_domain ext insn1 s env).2.2).1 =
      (get_value_id_domain ext insn1 s env).1) ∧
    (Option.map (fun r => r.2)
      (collect sampleExt [(topEnv, [sampleInsn, sampleInsn2])] [] []) =
      some [{ earlier_insn := sampleInsn, insn := sampleInsn2 }]) := by
  refine ⟨?_, ?_, by decide⟩
  · intro ext insn s env hcomm
    rw [get_value_value]
    show List.Sorted (· ≤ ·)
      (if is_commutative insn.opcode then
        List.insertionSort (· ≤ ·)
          (process_srcs insn env.ref insn.srcs [] s).1
      else (process_srcs insn env.ref insn.srcs [] s).1)
    rw [hcomm]
    simp only [if_true]
    exact List.sorted_insertionSort (· ≤ ·) _
  · intro ext insn1 insn2 s env r1 r2 va vb hcomm h12 hs1 hs2 har1 har2 hp
    have hpc1 : (env.ref r1).getConstant = some va := by
      rw [har1]
      rfl
    have hpc2 : (env.ref r2).getConstant = some vb := by
      rw [har2]
      rfl
    have hps1 : process_srcs insn1 env.ref insn1.srcs [] s =
        ([va, vb], [], s) := by
      rw [hs1, process_srcs_cons_const insn1 env.ref r1 [r2] [] s va hpc1,
        process_srcs_cons_const insn1 env.ref r2 [] [] s vb hpc2,
        process_srcs_nil]
    have hval1 : (get_value ext insn1 s env).1 =
        { opcode := insn1.opcode
          srcs := List.insertionSort (· ≤ ·) [va, vb]
          payload := selectPayload ext insn1 } := by
      rw [get_value_value, hps1, hcomm]
      simp only [if_true]
    have henv1 : (get_value ext insn1 s env).2.2 = env := by
      rw [get_value_env, hps1]
      rfl
    have hint1 : (get_value ext insn1 s env).2.1 = s := by
      rw [get_value_interner, hps1]
    rw [get_value_id_domain_eq ext insn1 s env, hval1, henv1, hint1]
    rw [get_value_id_domain_eq]
    have hps2 : process_srcs insn2 env.ref insn2.srcs []
        (get_value_id s
          { opcode := insn1.opcode
            srcs := List.insertionSort (· ≤ ·) [va, vb]
            payload := selectPayload ext insn1 }).2 =
        ([vb, va], [],
          (get_value_id s
            { opcode := insn1.opcode
              srcs := List.insertionSort (· ≤ ·) [va, vb]
              payload := selectPayload ext insn1 }).2) := by
      rw [hs2, process_srcs_cons_const insn2 env.ref r2 [r1] [] _ vb hpc2,
        process_srcs_cons_const insn2 env.ref r1 [] [] _ va hpc1,
        process_srcs_nil]
    have hcomm2 : is_commutative insn2.opcode = true := by
      rw [← h12]
      exact hcomm
    have hval2 : (get_value ext insn2
        (get_value_id s
          { opcode := insn1.opcode
            srcs := List.insertionSort (· ≤ ·) [va, vb]
            payload := selectPayload ext insn1 }).2 env).1 =
        { opcode := insn1.opcode
          srcs := List.insertionSort (· ≤ ·) [va, vb]
          payload := selectPayload ext insn1 } := by
      rw [get_value_value, hps2, hcomm2]
      simp only [if_true]
      rw [← h12, ← hp, insertionSort_pair vb va]
    have hint2 : (get_value ext insn2
        (get_value_id s
          { opcode := insn1.opcode
            srcs := List.insertionSort (· ≤ ·) [va, vb]
            payload := selectPayload ext insn1 }).2 env).2.1 =
        (get_value_id s
          { opcode := insn1.opcode
            srcs := List.insertionSort (· ≤ ·) [va, vb]
            payload := selectPayload ext insn1 }).2 := by
      rw [get_value_interner, hps2]
    rw [hval2, hint2]
    rw [get_value_id_found _ _ _ (findId_after_get_value_id s _)]

/-- Witness for C8 at the concrete swapped-operand pair. -/
theorem C8_witness :
    List.Sorted (· ≤ ·)
      (get_value sampleExt sampleInsn [] envBarrierW).1.srcs ∧
    (get_value_id_domain sampleExt sampleInsn2
      (get_value_id_domain sampleExt sampleInsn [] envBarrierW).2.1
      (get_value_id_domain sampleExt sampleInsn [] envBarrierW).2.2).1 =
    (get_value_id_domain sampleExt sampleInsn [] envBarrierW).1 := by
  have h := C8_commutative_unification
  exact ⟨h.1 sampleExt sampleInsn [] envBarrierW (by decide),
    h.2.1 sampleExt sampleInsn sampleInsn2 [] envBarrierW 0 1 2 2
      (by decide) (by decide) (by decide) (by decide) (by decide) (by decide)
      (by decide)⟩

/-! ### Claim C7: the collector assertion never fires -/

theorem transfer_main_eq_move (ext : Ext) (insn : IRInstruction)
    (s : InternState) (env : CseEnvironment)
    (hm : is_move insn.opcode = true) :
    transfer_main ext insn s env =
      (s, set_current_state_at (insn.dest.getD 0) insn.destIsWide
        (env.ref (insn.srcs.getD 0 0)) env) := by
  obtain ⟨iid, op, srcs, dest, wide, lit, ty, fr, mr, sr, dr, hmr, hmrp⟩ :=
    insn
  cases op <;> first
    | rfl
    | (exfalso; simp [is_move] at hm)

theorem transfer_main_eq_move_result (ext : Ext) (insn : IRInstruction)
    (s : InternState) (env : CseEnvironment)
    (hm : is_move_result_family insn.opcode = true) :
    transfer_main ext insn s env =
      (s, set_current_state_at (insn.dest.getD 0) insn.destIsWide
        (env.ref RESULT_REGISTER)
        (match (env.ref RESULT_REGISTER).getConstant with
          | some value_id =>
            record_def env (is_barrier_sensitive value_id) value_id insn
          | none => env)) := by
  obtain ⟨iid, op, srcs, dest, wide, lit, ty, fr, mr, sr, dr, hmr, hmrp⟩ :=
    insn
  cases op <;> first
    | rfl
    | (exfalso; simp [is_move_result_family] at hm)

theorem transfer_main_eq_default (ext : Ext) (insn : IRInstruction)
    (s : InternState) (env : CseEnvironment)
    (hm : is_move insn.opcode = false)
    (hmr : is_move_result_family insn.opcode = false) :
    transfer_main ext insn s env =
      (if insn.dest.isSome then
        match (get_value_id_domain ext insn s env).1.getConstant with
        | some value_id =>
          ((get_value_id_domain ext insn s env).2.1,
            set_current_state_at (insn.dest.getD 0) insn.destIsWide
              (Flat.const value_id)
              (record_def (get_value_id_domain ext insn s env).2.2
                (is_barrier_sensitive value_id) value_id insn))
        | none =>
          ((get_value_id_domain ext insn s env).2.1,
            set_current_state_at (insn.dest.getD 0) insn.destIsWide
              (get_value_id_domain ext insn s env).1
              (get_value_id_domain ext insn s env).2.2)
      else if insn.hasMoveResult || insn.hasMoveResultPseudo then
        ((get_value_id_domain ext insn s env).2.1,
          { (get_value_id_domain ext insn s env).2.2 with
            ref := Function.update
              (get_value_id_domain ext insn s env).2.2.ref RESULT_REGISTER
              (get_value_id_domain ext insn s env).1 })
      else (s, env)) := by
  obtain ⟨iid, op, srcs, dest, wide, lit, ty, fr, mr, sr, dr, hmr', hmrp⟩ :=
    insn
  cases op <;> first
    | rfl
    | (exfalso; simp [is_move, is_move_result_family] at hm hmr)

theorem process_srcs_flagsWF (insn : IRInstruction) (refv : Nat → Flat Nat) :
    ∀ (l : List Nat) (pre : List (Nat × Nat)) (s : InternState),
      InternFlagsWF s → InternFlagsWF (process_srcs insn refv l pre s).2.2 := by
  intro l
  induction l with
  | nil =>
    intro pre s h
    rw [process_srcs_nil]
    exact h
  | cons reg rest ih =>
    intro pre s h
    rcases hc : (refv reg).getConstant with _ | c
    · rcases hl : lookupPre pre reg with _ | vid
      · rw [process_srcs_cons_mint insn refv reg rest pre s hc hl]
        exact ih _ _
          (internFlagsWF_preserved s (get_pre_state_src_value reg insn) h)
      · rw [process_srcs_cons_cached insn refv reg rest pre s vid hc hl]
        exact ih pre s h
    · rw [process_srcs_cons_const insn refv reg rest pre s c hc]
      exact ih pre s h

theorem process_srcs_cache_keys (insn : IRInstruction)
    (refv : Nat → Flat Nat) :
    ∀ (l : List Nat) (pre : List (Nat × Nat)) (s : InternState) (r vid : Nat),
      lookupPre (process_srcs insn refv l pre s).2.1 r = some vid →
      lookupPre pre r = some vid ∨ r ∈ l := by
  intro l
  induction l with
  | nil =>
    intro pre s r vid h
    rw [process_srcs_nil] at h
    exact Or.inl h
  | cons reg rest ih =>
    intro pre s r vid h
    rcases hc : (refv reg).getConstant with _ | c
    · rcases hl : lookupPre pre reg with _ | vid'
      · rw [process_srcs_cons_mint insn refv reg rest pre s hc hl] at h
        rcases ih _ _ r vid h with hpre | hrest
        · rcases lookupPre_append_cases pre reg _ r vid hpre with hp | ⟨he, -⟩
          · exact Or.inl hp
          · exact Or.inr (by rw [he]; exact List.mem_cons_self reg rest)
        · exact Or.inr (List.mem_cons_of_mem reg hrest)
      · rw [process_srcs_cons_cached insn refv reg rest pre s vid' hc hl] at h
        rcases ih pre s r vid h with hp | hrest
        · exact Or.inl hp
        · exact Or.inr (List.mem_cons_of_mem reg hrest)
    · rw [process_srcs_cons_const insn refv reg rest pre s c hc] at h
      rcases ih pre s r vid h with hp | hrest
      · exact Or.inl hp
      · exact Or.inr (List.mem_cons_of_mem reg hrest)

theorem get_value_interner_flagsWF (ext : Ext) (insn : IRInstruction)
    (s : InternState) (env : CseEnvironment) (h : InternFlagsWF s) :
    InternFlagsWF (get_value ext insn s env).2.1 := by
  rw [get_value_interner]
  exact process_srcs_flagsWF insn env.ref insn.srcs [] s h

theorem get_value_ref_unchanged (ext : Ext) (insn : IRInstruction)
    (s : InternState) (env : CseEnvironment) (r : Nat)
    (hr : r ∉ insn.srcs) :
    (get_value ext insn s env).2.2.ref r = env.ref r := by
  rw [get_value_env]
  rcases he : (process_srcs insn env.ref insn.srcs [] s).2.1.isEmpty with _ | _
  · simp only [Bool.false_eq_true, if_false]
    show (match lookupPre (process_srcs insn env.ref insn.srcs [] s).2.1 r
        with
      | some vid => Flat.const vid
      | none => env.ref r) = env.ref r
    rcases hl : lookupPre (process_srcs insn env.ref insn.srcs [] s).2.1 r
      with _ | vid
    · rfl
    · rcases process_srcs_cache_keys insn env.ref insn.srcs [] s r vid hl
        with hp | hmem
      · exact absurd hp (by simp [lookupPre])
      · exact absurd hmem hr
  · simp only [if_true]

theorem get_value_value_opcode (ext : Ext) (insn : IRInstruction)
    (s : InternState) (env : CseEnvironment) :
    (get_value ext insn s env).1.opcode = insn.opcode := by
  rw [get_value_value]

theorem get_value_id_domain_not_pre (ext : Ext) (insn : IRInstruction)
    (s : InternState) (env : CseEnvironment) (hwf : InternFlagsWF s)
    (hop : insn.opcode ≠ IOPCODE_PRE_STATE_SRC) :
    ∀ vid, (get_value_id_domain ext insn s env).1 = Flat.const vid →
      is_pre_state_src vid = false := by
  intro vid h
  rw [get_value_id_domain_eq] at h
  have hvid : vid = (get_value_id (get_value ext insn s env).2.1
      (get_value ext insn s env).1).1 := by
    cases h
    rfl
  obtain ⟨k, hk⟩ := get_value_id_flags (get_value ext insn s env).2.1
    (get_value ext insn s env).1
    (get_value_interner_flagsWF ext insn s env hwf)
  rw [hvid, hk,
    is_pre_state_src_four_mul_add k _ (computeFlags_lt _),
    is_pre_state_src_computeFlags, get_value_value_opcode]
  exact decide_eq_false hop

theorem record_def_ref (env : CseEnvironment) (ibs : Bool) (vid : Nat)
    (insn : IRInstruction) : (record_def env ibs vid insn).ref = env.ref := by
  unfold record_def
  rcases (get_def_env env ibs vid).getConstant with _ | c
  · unfold set_def_env
    cases ibs <;> rfl
  · rfl

theorem set_current_state_at_get (reg : Nat) (wide : Bool) (v : Flat Nat)
    (env : CseEnvironment) :
    (set_current_state_at reg wide v env).ref reg = v := by
  unfold set_current_state_at
  cases wide
  · simp [Function.update]
  · simp only [if_true]
    show Function.update (Function.update env.ref reg v) (reg + 1) Flat.top
      reg = v
    rw [Function.update_apply]
    rw [if_neg (by omega)]
    simp [Function.update]

theorem set_current_state_at_other (reg : Nat) (wide : Bool) (v : Flat Nat)
    (env : CseEnvironment) (r : Nat) (h1 : r ≠ reg) (h2 : r ≠ reg + 1) :
    (set_current_state_at reg wide v env).ref r = env.ref r := by
  unfold set_current_state_at
  cases wide
  · simp [Function.update_apply, h1]
  · simp only [if_true]
    show Function.update (Function.update env.ref reg v) (reg + 1) Flat.top
      r = env.ref r
    rw [Function.update_apply, if_neg h2, Function.update_apply, if_neg h1]

theorem envInv_set_current_state_at (reg : Nat) (wide : Bool) (v : Flat Nat)
    (env : CseEnvironment) (henv : EnvInv env)
    (hv : ∀ vid, v = Flat.const vid → is_pre_state_src vid = false) :
    EnvInv (set_current_state_at reg wide v env) := by
  intro vid h
  by_cases h1 : RESULT_REGISTER = reg
  · rw [← h1] at h
    rw [set_current_state_at_get] at h
    exact hv vid h
  · by_cases h2 : RESULT_REGISTER = reg + 1
    · unfold set_current_state_at at h
      cases wide
      · simp only [Bool.false_eq_true, if_false] at h
        rw [Function.update_apply, if_neg h1] at h
        exact henv vid h
      · simp only [if_true] at h
        rw [show (RESULT_REGISTER : Nat) = reg + 1 from h2] at h
        rw [Function.update_same] at h
        exact absurd h (by simp)
    · rw [set_current_state_at_other reg wide v env RESULT_REGISTER h1 h2]
        at h
      exact henv vid h

theorem Flat.getConstant_eq_some {α : Type} (x : Flat α) (c : α)
    (h : x.getConstant = some c) : x = Flat.const c := by
  rcases x with _ | a | _
  · exact absurd h (by simp [Flat.getConstant])
  · have : a = c := by simpa [Flat.getConstant] using h
    rw [this]
  · exact absurd h (by simp [Flat.getConstant])

theorem envInv_set_current_state_at_ne (reg : Nat) (wide : Bool)
    (v : Flat Nat) (env : CseEnvironment) (henv : EnvInv env)
    (hne : reg ≠ RESULT_REGISTER) :
    EnvInv (set_current_state_at reg wide v env) := by
  intro vid h
  by_cases h2 : RESULT_REGISTER = reg + 1
  · unfold set_current_state_at at h
    cases wide
    · simp only [Bool.false_eq_true, if_false] at h
      rw [Function.update_apply, if_neg (fun he => hne he.symm)] at h
      exact henv vid h
    · simp only [if_true] at h
      rw [show (RESULT_REGISTER : Nat) = reg + 1 from h2,
        Function.update_same] at h
      exact absurd h (by simp)
  · rw [set_current_state_at_other reg wide v env RESULT_REGISTER
      (fun he => hne he.symm) h2] at h
    exact henv vid h

theorem gvd_interner_flagsWF (ext : Ext) (insn : IRInstruction)
    (s : InternState) (env : CseEnvironment) (hwf : InternFlagsWF s) :
    InternFlagsWF (get_value_id_domain ext insn s env).2.1 := by
  rw [get_value_id_domain_eq]
  exact internFlagsWF_preserved _ _ (get_value_interner_flagsWF ext insn s env hwf)

theorem envInv_gvd (ext : Ext) (insn : IRInstruction) (s : InternState)
    (env : CseEnvironment) (henv : EnvInv env)
    (hrr : RESULT_REGISTER ∉ insn.srcs) :
    EnvInv (get_value_id_domain ext insn s env).2.2 := by
  intro vid h
  rw [get_value_id_domain_eq] at h
  show is_pre_state_src vid = false
  rw [show (get_value ext insn s env).2.2.ref RESULT_REGISTER =
      env.ref RESULT_REGISTER from
    get_value_ref_unchanged ext insn s env RESULT_REGISTER hrr] at h
  exact henv vid h

theorem envInv_barrier_aftermath (env : CseEnvironment) (henv : EnvInv env) :
    EnvInv (barrier_aftermath env) := by
  intro vid h
  rcases hc : env.ref RESULT_REGISTER with _ | v | _
  · have hx : (barrier_aftermath env).ref RESULT_REGISTER = Flat.bot := by
      simp [barrier_aftermath, hc]
    rw [hx] at h
    exact absurd h (by simp)
  · have hx : (barrier_aftermath env).ref RESULT_REGISTER =
        (if is_barrier_sensitive v then Flat.top else Flat.const v) := by
      simp [barrier_aftermath, hc]
    rw [hx] at h
    rcases hb : is_barrier_sensitive v with _ | _
    · rw [hb] at h
      simp only [Bool.false_eq_true, if_false] at h
      have hv : v = vid := by
        cases h
        rfl
      exact henv vid (by rw [← hv]; exact hc)
    · rw [hb] at h
      simp only [if_true] at h
      exact absurd h (by simp)
  · have hx : (barrier_aftermath env).ref RESULT_REGISTER = Flat.top := by
      simp [barrier_aftermath, hc]
    rw [hx] at h
    exact absurd h (by simp)

theorem barrier_aftermath_ref_pres (env : CseEnvironment) (r : Nat)
    (vid : Nat) (h : (barrier_aftermath env).ref r = Flat.const vid) :
    env.ref r = Flat.const vid := by
  rcases hc : env.ref r with _ | v | _
  · have hx : (barrier_aftermath env).ref r = Flat.bot := by
      simp [barrier_aftermath, hc]
    rw [hx] at h
    exact absurd h (by simp)
  · have hx : (barrier_aftermath env).ref r =
        (if is_barrier_sensitive v then Flat.top else Flat.const v) := by
      simp [barrier_aftermath, hc]
    rw [hx] at h
    rcases hb : is_barrier_sensitive v with _ | _
    · rw [hb] at h
      simp only [Bool.false_eq_true, if_false] at h
      exact h
    · rw [hb] at h
      simp only [if_true] at h
      exact absurd h (by simp)
  · have hx : (barrier_aftermath env).ref r = Flat.top := by
      simp [barrier_aftermath, hc]
    rw [hx] at h
    exact absurd h (by simp)

theorem transfer_step (ext : Ext) (insn : IRInstruction) (s : InternState)
    (env : CseEnvironment) (hwf : InternFlagsWF s) (henv : EnvInv env)
    (hins : WfInsn insn) :
    InternFlagsWF (transfer_main ext insn s env).1 ∧
    EnvInv (transfer_main ext insn s env).2 ∧
    (insn.dest.isSome = true → is_move insn.opcode = false →
      ∀ vid, (transfer_main ext insn s env).2.ref (insn.dest.getD 0) =
        Flat.const vid → is_pre_state_src vid = false) := by
  obtain ⟨hop, hrr, hdr⟩ := hins
  by_cases hm : is_move insn.opcode = true
  · rw [transfer_main_eq_move ext insn s env hm]
    refine ⟨hwf, ?_, ?_⟩
    · exact envInv_set_current_state_at_ne _ _ _ env henv hdr
    · intro _ hmf
      rw [hm] at hmf
      exact absurd hmf (by simp)
  · have hm' : is_move insn.opcode = false := by
      rcases hb : is_move insn.opcode with _ | _
      · rfl
      · exact absurd hb hm
    by_cases hmr : is_move_result_family insn.opcode = true
    · rw [transfer_main_eq_move_result ext insn s env hmr]
      have hrefD : (match (env.ref RESULT_REGISTER).getConstant with
          | some value_id =>
            record_def env (is_barrier_sensitive value_id) value_id insn
          | none => env).ref = env.ref := by
        rcases (env.ref RESULT_REGISTER).getConstant with _ | c
        · rfl
        · exact record_def_ref env _ c insn
      have henvD : EnvInv (match (env.ref RESULT_REGISTER).getConstant with
          | some value_id =>
            record_def env (is_barrier_sensitive value_id) value_id insn
          | none => env) := by
        intro vid h
        rw [hrefD] at h
        exact henv vid h
      refine ⟨hwf, ?_, ?_⟩
      · exact envInv_set_current_state_at _ _ _ _ henvD
          (fun vid hv => henv vid hv)
      · intro hd hmf vid h
        rw [set_current_state_at_get] at h
        exact henv vid h
    · have hmr' : is_move_result_family insn.opcode = false := by
        rcases hb : is_move_result_family insn.opcode with _ | _
        · rfl
        · exact absurd hb hmr
      rw [transfer_main_eq_default ext insn s env hm' hmr']
      have hnp : ∀ vid, (get_value_id_domain ext insn s env).1 =
          Flat.const vid → is_pre_state_src vid = false :=
        get_value_id_domain_not_pre ext insn s env hwf hop
      by_cases hd : insn.dest.isSome = true
      · rw [if_pos hd]
        rcases hgc : (get_value_id_domain ext insn s env).1.getConstant
          with _ | value_id
        · refine ⟨gvd_interner_flagsWF ext insn s env hwf, ?_, ?_⟩
          · exact envInv_set_current_state_at _ _ _ _
              (envInv_gvd ext insn s env henv hrr) hnp
          · intro _ _ vid h
            rw [set_current_state_at_get] at h
            exact hnp vid h
        · have hconst : (get_value_id_domain ext insn s env).1 =
              Flat.const value_id :=
            Flat.getConstant_eq_some _ _ hgc
          have henv1 : EnvInv (record_def
              (get_value_id_domain ext insn s env).2.2
              (is_barrier_sensitive value_id) value_id insn) := by
            intro vid h
            rw [record_def_ref] at h
            exact envInv_gvd ext insn s env henv hrr vid h
          refine ⟨gvd_interner_flagsWF ext insn s env hwf, ?_, ?_⟩
          · refine envInv_set_current_state_at _ _ _ _ henv1 ?_
            intro vid hv
            have : vid = value_id := by
              cases hv
              rfl
            rw [this]
            exact hnp value_id hconst
          · intro _ _ vid h
            rw [set_current_state_at_get] at h
            have : value_id = vid := by
              cases h
              rfl
            rw [← this]
            exact hnp value_id hconst
      · rw [if_neg hd]
        by_cases hmv : (insn.hasMoveResult || insn.hasMoveResultPseudo) = true
        · rw [if_pos hmv]
          refine ⟨gvd_interner_flagsWF ext insn s env hwf, ?_, ?_⟩
          · intro vid h
            show is_pre_state_src vid = false
            have h' : Function.update
                (get_value_id_domain ext insn s env).2.2.ref RESULT_REGISTER
                (get_value_id_domain ext insn s env).1 RESULT_REGISTER =
                Flat.const vid := h
            rw [Function.update_same] at h'
            exact hnp vid h'
          · intro hdd
            exact absurd hdd hd
        · rw [if_neg hmv]
          refine ⟨hwf, henv, ?_⟩
          intro hdd
          exact absurd hdd hd

theorem analyze_step (ext : Ext) (insn : IRInstruction) (s : InternState)
    (env : CseEnvironment) (hwf : InternFlagsWF s) (henv : EnvInv env)
    (hins : WfInsn insn) :
    InternFlagsWF (analyze_instruction ext insn s env).1 ∧
    EnvInv (analyze_instruction ext insn s env).2 ∧
    (insn.dest.isSome = true → is_move insn.opcode = false →
      ∀ vid, (analyze_instruction ext insn s env).2.ref (insn.dest.getD 0) =
        Flat.const vid → is_pre_state_src vid = false) := by
  obtain ⟨h1, h2, h3⟩ := transfer_step ext insn s env hwf henv hins
  rcases hib : induces_barrier ext insn with _ | _
  · have heq : analyze_instruction ext insn s env =
        transfer_main ext insn s env := by
      unfold analyze_instruction
      rw [hib]
      rfl
    rw [heq]
    exact ⟨h1, h2, h3⟩
  · have heq : analyze_instruction ext insn s env =
        ((transfer_main ext insn s env).1,
          barrier_aftermath (transfer_main ext insn s env).2) := by
      unfold analyze_instruction
      rw [hib]
      rfl
    rw [heq]
    refine ⟨h1, envInv_barrier_aftermath _ h2, ?_⟩
    intro hd hmf vid h
    exact h3 hd hmf vid (barrier_aftermath_ref_pres _ _ vid h)

theorem collect_block_no_assert (ext : Ext) (insns : List IRInstruction) :
    ∀ (s : InternState) (env : CseEnvironment) (acc : List Forward),
      InternFlagsWF s → EnvInv env → (∀ i ∈ insns, WfInsn i) →
      ∃ r, collect_block ext insns s env acc = some r ∧
        InternFlagsWF r.1 := by
  induction insns with
  | nil =>
    intro s env acc hwf henv hins
    exact ⟨(s, env, acc), rfl, hwf⟩
  | cons insn rest ih =>
    intro s env acc hwf henv hins
    obtain ⟨h1, h2, h3⟩ := analyze_step ext insn s env hwf henv
      (hins insn (List.mem_cons_self insn rest))
    have hrest : ∀ i ∈ rest, WfInsn i :=
      fun i hi => hins i (List.mem_cons_of_mem insn hi)
    unfold collect_block
    dsimp only
    by_cases hskip : (!insn.dest.isSome || is_move insn.opcode ||
        is_const insn.opcode) = true
    · rw [if_pos hskip]
      exact ih _ _ _ h1 h2 hrest
    · rw [if_neg hskip]
      have hguard : insn.dest.isSome = true ∧ is_move insn.opcode = false := by
        rcases ha : insn.dest.isSome with _ | _ <;>
          rcases hb : is_move insn.opcode with _ | _ <;>
            rcases hc : is_const insn.opcode with _ | _ <;> simp_all
      rcases hc : ((analyze_instruction ext insn s env).2.ref
          (insn.dest.getD 0)).getConstant with _ | vid
      · exact ih _ _ _ h1 h2 hrest
      · have hps : is_pre_state_src vid = false :=
          h3 hguard.1 hguard.2 vid (Flat.getConstant_eq_some _ _ hc)
        show ∃ r,
          (if is_pre_state_src vid = true then none
            else
              match (get_def_env (analyze_instruction ext insn s env).2
                  (is_barrier_sensitive vid) vid).getConstant with
              | none => collect_block ext rest
                  (analyze_instruction ext insn s env).1
                  (analyze_instruction ext insn s env).2 acc
              | some earlier_insn =>
                if earlier_insn = insn then
                  collect_block ext rest
                    (analyze_instruction ext insn s env).1
                    (analyze_instruction ext insn s env).2 acc
                else
                  if is_load_param earlier_insn.opcode = true then
                    collect_block ext rest
                      (analyze_instruction ext insn s env).1
                      (analyze_instruction ext insn s env).2 acc
                  else
                    collect_block ext rest
                      (analyze_instruction ext insn s env).1
                      (analyze_instruction ext insn s env).2
                      (acc ++ [Forward.mk earlier_insn insn])) = some r ∧
            InternFlagsWF r.1
        rw [hps]
        simp only [Bool.false_eq_true, if_false]
        rcases hdc : (get_def_env (analyze_instruction ext insn s env).2
            (is_barrier_sensitive vid) vid).getConstant with _ | earlier
        · exact ih _ _ _ h1 h2 hrest
        · show ∃ r,
            (if earlier = insn then
              collect_block ext rest (analyze_instruction ext insn s env).1
                (analyze_instruction ext insn s env).2 acc
            else
              if is_load_param earlier.opcode = true then
                collect_block ext rest
                  (analyze_instruction ext insn s env).1
                  (analyze_instruction ext insn s env).2 acc
              else
                collect_block ext rest
                  (analyze_instruction ext insn s env).1
                  (analyze_instruction ext insn s env).2
                  (acc ++ [Forward.mk earlier insn])) = some r ∧
              InternFlagsWF r.1
          by_cases he : earlier = insn
          · rw [if_pos he]
            exact ih _ _ _ h1 h2 hrest
          · rw [if_neg he]
            by_cases hlp : is_load_param earlier.opcode = true
            · rw [if_pos hlp]
              exact ih _ _ _ h1 h2 hrest
            · rw [if_neg hlp]
              exact ih _ _ _ h1 h2 hrest

/-- C7: for every instruction examined by the redundancy collector, if the
post-state register environment binds the instruction's destination to a
concrete value-id, that id never has the `IS_PRE_STATE_SRC` flag, so the
`always_assert` on that path never fails and the collector always returns
a result. -/
theorem C7_collector_assert_never_fails (ext : Ext)
    (blocks : List (CseEnvironment × List IRInstruction)) (s : InternState)
    (hwf : InternFlagsWF s)
    (hblocks : ∀ b ∈ blocks, EnvInv b.1 ∧ ∀ i ∈ b.2, WfInsn i) :
    ∃ r, collect ext blocks s [] = some r := by
  suffices h : ∀ (blocks' : List (CseEnvironment × List IRInstruction))
      (s' : InternState) (acc : List Forward), InternFlagsWF s' →
      (∀ b ∈ blocks', EnvInv b.1 ∧ ∀ i ∈ b.2, WfInsn i) →
      ∃ r, collect ext blocks' s' acc = some r by
    exact h blocks s [] hwf hblocks
  intro blocks'
  induction blocks' with
  | nil =>
    intro s' acc _ _
    exact ⟨(s', acc), rfl⟩
  | cons blk rest ih =>
    intro s' acc hwf' hb
    obtain ⟨entry, insns⟩ := blk
    obtain ⟨hinv, hwfi⟩ := hb (entry, insns) (List.mem_cons_self _ rest)
    obtain ⟨rb, hrb, hwfb⟩ :=
      collect_block_no_assert ext insns s' entry acc hwf' hinv hwfi
    unfold collect
    rw [hrb]
    exact ih rb.1 rb.2.2 hwfb (fun b hbm => hb b (List.mem_cons_of_mem _ hbm))

/-- Witness for C7 on the concrete two-instruction straight-line block. -/
theorem C7_witness :
    ∃ r, collect sampleExt [(topEnv, [sampleInsn, sampleInsn2])] [] [] =
      some r := by
  refine C7_collector_assert_never_fails sampleExt
    [(topEnv, [sampleInsn, sampleInsn2])] [] internFlagsWF_nil ?_
  intro b hb
  have hb' : b = (topEnv, [sampleInsn, sampleInsn2]) := by simpa using hb
  subst hb'
  constructor
  · intro vid h
    exact absurd h (by simp [topEnv])
  · intro i hi
    rcases List.mem_cons.mp hi with h1 | h2
    · subst h1
      exact ⟨by decide, by decide, by decide⟩
    · have h2' : i = sampleInsn2 := by simpa using h2
      subst h2'
      exact ⟨by decide, by decide, by decide⟩

end cse
